import Mathlib

/-!
# aurora-servicediscovery: the per-identifier discovery cache

A shallow embedding of `internal/discovery/serverCache.go` (the two memoising
registries and `GetServerSetEntity`) and of `App.handleEvent` from
`cmd/aurora-servicediscovery/main.go`.

Library code the sources call is embedded next to them, each definition naming
the library function it mirrors:

* `regexp` (Go standard library): a derivative matcher over the operators the
  compiled pattern uses;
* `strings.Split` with a one-character separator;
* `github.com/patrickmn/go-cache`: `Item`, `Set`, `Get`, `DeleteExpired`;
* `github.com/thinker0/go-serversets`: taken as a parameter (`Backend`), since
  its results depend on the coordination service.

Time is `time.Now().UnixNano()` as an integer; a call of `GetServerSetEntity`
is taken to run at one clock reading `now`.
-/

namespace Discovery

/-! ## regexp -/

/-- Regular expressions, one constructor per `regexp/syntax` operator that the
pattern of `New` compiles to (`OpNoMatch`, `OpLiteral`, `OpCharClass`,
`OpConcat`, `OpAlternate`, `OpStar`, `OpPlus`). -/
inductive Regexp where
  | noMatch : Regexp
  | literal (runes : List Char) : Regexp
  | charClass (ranges : List (Char × Char)) : Regexp
  | concat (a b : Regexp) : Regexp
  | alternate (a b : Regexp) : Regexp
  | star (a : Regexp) : Regexp
  | plus (a : Regexp) : Regexp
deriving DecidableEq, Repr

/-- Membership of a rune in a character class given as inclusive ranges. -/
def inRanges (ranges : List (Char × Char)) (c : Char) : Bool :=
  ranges.any (fun r => decide (r.1.toNat ≤ c.toNat) && decide (c.toNat ≤ r.2.toNat))

/-- Whether the expression matches the empty text. -/
def nullable : Regexp → Bool
  | .noMatch => false
  | .literal runes => runes.isEmpty
  | .charClass _ => false
  | .concat a b => nullable a && nullable b
  | .alternate a b => nullable a || nullable b
  | .star _ => true
  | .plus a => nullable a

/-- The expression matching what remains after the rune `c` has been read. -/
def deriv : Regexp → Char → Regexp
  | .noMatch, _ => .noMatch
  | .literal [], _ => .noMatch
  | .literal (r :: rs), c => if r = c then .literal rs else .noMatch
  | .charClass ranges, c => if inRanges ranges c then .literal [] else .noMatch
  | .concat a b, c =>
      if nullable a then .alternate (.concat (deriv a c) b) (deriv b c)
      else .concat (deriv a c) b
  | .alternate a b, c => .alternate (deriv a c) (deriv b c)
  | .star a, c => .concat (deriv a c) (.star a)
  | .plus a, c => .concat (deriv a c) (.star a)

/-- Whole-text match of a rune sequence. -/
def matchRunes : Regexp → List Char → Bool
  | re, [] => nullable re
  | re, c :: cs => matchRunes (deriv re c) cs

/-- The method `(*Regexp).MatchString` for a pattern written between `^` and `$`
(no flags): the text matches iff the whole of it matches the expression
between the anchors, which is what `Regexp` values here stand for. -/
def MatchString (re : Regexp) (s : String) : Bool := matchRunes re s.data

/-- The class `[a-zA-Z0-9-_]`: three ranges and the two single runes `-`, `_`. -/
def identClass : Regexp :=
  .charClass [('a', 'z'), ('A', 'Z'), ('0', '9'), ('-', '-'), ('_', '_')]

/-- The group `(prod|release|releasedr|staging|devel|beta|alpha)`. -/
def envAlternatives : Regexp :=
  .alternate (.literal "prod".data)
    (.alternate (.literal "release".data)
      (.alternate (.literal "releasedr".data)
        (.alternate (.literal "staging".data)
          (.alternate (.literal "devel".data)
            (.alternate (.literal "beta".data) (.literal "alpha".data))))))

/-- The pattern compiled in `New` (serverCache.go line 31), anchors left implicit:
`^[a-zA-Z0-9-_]+/(prod|release|releasedr|staging|devel|beta|alpha)/[a-zA-Z0-9-_]+$`. -/
def servicePattern : Regexp :=
  .concat (.plus identClass)
    (.concat (.literal ['/'])
      (.concat envAlternatives
        (.concat (.literal ['/']) (.plus identClass))))

/-! ## strings.Split -/

/-- Splitting a rune sequence at every occurrence of `sep`. -/
def splitRunes (sep : Char) : List Char → List (List Char)
  | [] => [[]]
  | c :: cs =>
      if c = sep then [] :: splitRunes sep cs
      else
        match splitRunes sep cs with
        | [] => [[c]]
        | seg :: segs => (c :: seg) :: segs

/-- The function `strings.Split(s, sep)` for a separator of one character. -/
def Split (s : String) (sep : Char) : List String :=
  (splitRunes sep s.data).map String.mk

/-! ## go-cache -/

/-- One nanosecond, the unit of `time.Duration`. -/
def Nanosecond : Int := 1

/-- The constant `time.Second`. -/
def Second : Int := 1000000000 * Nanosecond

/-- The constant `time.Minute`. -/
def Minute : Int := 60 * Second

/-- The struct `cache.Item`: the stored object and its expiry in Unix nanoseconds
(`0` means the item never expires). -/
structure Item (α : Type) where
  Object : α
  Expiration : Int
deriving DecidableEq, Repr

/-- The struct `cache.Cache`: the default expiration, the janitor interval and the
map `items` (an association list whose first entry for a key is the binding). -/
structure Cache (α : Type) where
  defaultExpiration : Int
  cleanupInterval : Int
  items : List (String × Item α)
deriving DecidableEq, Repr

namespace Cache

/-- The constructor `cache.New(defaultExpiration, cleanupInterval)`. -/
def New {α : Type} (defaultExpiration cleanupInterval : Int) : Cache α :=
  ⟨defaultExpiration, cleanupInterval, []⟩

/-- The map read `c.items[k]`. -/
def lookup {α : Type} (c : Cache α) (k : String) : Option (Item α) :=
  c.items.lookup k

/-- The inlined expiry test of `Get` and `DeleteExpired`:
`item.Expiration > 0 && now > item.Expiration`. -/
def expiredAt {α : Type} (now : Int) (item : Item α) : Bool :=
  decide (item.Expiration > 0) && decide (now > item.Expiration)

/-- The method `Set(k, x, d)`: `d == 0` takes the default expiration, a positive `d`
gives expiry `now + d`, otherwise no expiry; the binding of `k` is replaced
(no eviction callback runs for a replaced item). -/
def Set {α : Type} (c : Cache α) (now : Int) (k : String) (x : α) (d : Int) : Cache α :=
  let d1 := if d = 0 then c.defaultExpiration else d
  let e := if d1 > 0 then now + d1 else 0
  { c with items := (k, ⟨x, e⟩) :: c.items.filter (fun p => p.1 != k) }

/-- The method `Get(k)`: the object bound to `k` unless it is absent or expired;
the map is not written. -/
def Get {α : Type} (c : Cache α) (now : Int) (k : String) : Option α :=
  match c.lookup k with
  | none => none
  | some item => if expiredAt now item then none else some item.Object

/-- The method `DeleteExpired()` run by the janitor: expired items leave the map,
and the ones removed are handed to the eviction callback afterwards. -/
def DeleteExpired {α : Type} (c : Cache α) (now : Int) : Cache α × List (String × α) :=
  ({ c with items := c.items.filter (fun p => !expiredAt now p.2) },
   (c.items.filter (fun p => expiredAt now p.2)).map (fun p => (p.1, p.2.Object)))

end Cache

/-! ## go-serversets, as seen from the cache -/

/-- A `*serversets.ServerSet` (non-nil), identified by its address. -/
structure ServerSet where
  ptr : Nat
deriving DecidableEq, Repr

/-- A `*serversets.Watch` (non-nil), identified by its address. -/
structure Watch where
  ptr : Nat
deriving DecidableEq, Repr

/-- A `serversets.Entity`; the cache never inspects its fields. -/
structure Entity where
  host : String
  port : Nat
deriving DecidableEq, Repr

/-- An error value produced inside go-serversets. -/
structure ZkError where
  text : String
deriving DecidableEq, Repr

/-- A non-nil Go `error`: one made by `errors.New` in this package, or one handed
over by the backend library. -/
inductive GoError where
  | errorsNew (text : String) : GoError
  | backend (e : ZkError) : GoError
deriving DecidableEq, Repr

/-- What the registry library answers during one call: `serversets.New` (`none` is a
nil pointer), `(*ServerSet).Watch` (a pointer and an error, either may be nil)
and `(*Watch).EndpointEntities` (a slice, `none` is the nil slice). -/
structure Backend where
  New : String → String → String → List String → Option ServerSet
  Watch : ServerSet → Option Watch × Option ZkError
  EndpointEntities : Discovery.Watch → Option (List Entity)

/-- Calls that leave the cache towards the backend, in the order they are made. -/
inductive Call where
  | New (role environment service : String) (zookeepers : List String)
      (result : Option ServerSet) : Call
  | Watch (ss : ServerSet) : Call
  | Close (w : Discovery.Watch) : Call
deriving DecidableEq, Repr

/-- Whether the call is a session-open (`serversets.New`). -/
def Call.isNew : Call → Bool
  | .New _ _ _ _ _ => true
  | _ => false

/-- Whether the call is a watch registration (`Watch`). -/
def Call.isWatch : Call → Bool
  | .Watch _ => true
  | _ => false

/-- Whether the call is a release (`Close`) of a watcher. -/
def Call.isClose : Call → Bool
  | .Close _ => true
  | _ => false

/-! ## serverCache.go -/

/-- The struct `ServiceSetsCache`. -/
structure ServiceSetsCache where
  hosts : List String
  pathServerSet : Cache ServerSet
  pathWatcher : Cache Watch
  serviceSets : Cache Unit
  match_ : Regexp
deriving DecidableEq, Repr

/-- The constructor `New(hosts)`: three caches of 60 minutes expiry swept every
10 minutes, and the compiled pattern. -/
def New (hosts : List String) : ServiceSetsCache :=
  { hosts := hosts
    pathServerSet := Cache.New (60 * Minute) (10 * Minute)
    pathWatcher := Cache.New (60 * Minute) (10 * Minute)
    serviceSets := Cache.New (60 * Minute) (10 * Minute)
    match_ := servicePattern }

/-- The eviction callback of `pathServerSet`: it only logs. -/
def onEvictedServerSet (_k : String) (_v : ServerSet) : List Call := []

/-- The eviction callback of `pathWatcher`: `watcher.Close()`. -/
def onEvictedWatcher (_k : String) (v : Watch) : List Call := [Call.Close v]

/-- A janitor run on `pathWatcher`: `DeleteExpired`, then the callback on every
evicted item. -/
def sweepWatchers (c : ServiceSetsCache) (now : Int) : ServiceSetsCache × List Call :=
  let r := c.pathWatcher.DeleteExpired now
  ({ c with pathWatcher := r.1 }, r.2.flatMap (fun p => onEvictedWatcher p.1 p.2))

/-- A janitor run on `pathServerSet`. -/
def sweepServerSets (c : ServiceSetsCache) (now : Int) : ServiceSetsCache × List Call :=
  let r := c.pathServerSet.DeleteExpired now
  ({ c with pathServerSet := r.1 }, r.2.flatMap (fun p => onEvictedServerSet p.1 p.2))

/-- The pair `([]serversets.Entity, error)` returned by `GetServerSetEntity`;
`none` is nil in both fields. -/
structure Return where
  entities : Option (List Entity)
  err : Option GoError
deriving DecidableEq, Repr

/-- One finished call: what it returned (`none` if it stopped in a runtime panic),
the cache afterwards, and the backend calls it made. -/
structure Outcome where
  ret : Option Return
  cache : ServiceSetsCache
  calls : List Call
deriving DecidableEq, Repr

/-- The text of the validation error (line 55). -/
def notMatchText (servicePath : String) : String :=
  "Service '" ++ servicePath ++ "', Not Match "

/-- Lines 82-86: the nil check on the local `serviceWatch`, then the read of the
watcher's current endpoint entities. -/
def readEndpoints (c : ServiceSetsCache) (B : Backend) (serviceWatch : Option Watch)
    (calls : List Call) : Outcome :=
  match serviceWatch with
  | none => ⟨some ⟨none, some (.errorsNew "serviceWatch nil")⟩, c, calls⟩
  | some w => ⟨some ⟨B.EndpointEntities w, none⟩, c, calls⟩

/-- Lines 68-86: reuse or create the watcher, then read its endpoints. The test of
line 76 is `err != nil || newServiceWatch == nil`, and what is returned there is
`(nil, err)`. -/
def watchStage (c : ServiceSetsCache) (B : Backend) (now : Int) (servicePath : String)
    (serverSets : Option ServerSet) (calls : List Call) : Outcome :=
  match c.pathWatcher.Get now servicePath with
  | some w => readEndpoints c B (some w) calls
  | none =>
    match serverSets with
    | none => ⟨some ⟨none, some (.errorsNew "serverSets nil")⟩, c, calls⟩
    | some ss =>
      match B.Watch ss with
      | (some newServiceWatch, none) =>
        readEndpoints
          { c with pathWatcher := c.pathWatcher.Set now servicePath newServiceWatch (60 * Minute) }
          B (some newServiceWatch) (calls ++ [Call.Watch ss])
      | (_, err) => ⟨some ⟨none, err.map GoError.backend⟩, c, calls ++ [Call.Watch ss]⟩

/-- Lines 57-67: reuse or open the connection. The result is either the early
return of the function or the cache, the local `serverSets` and the calls so
far, with which the function goes on. -/
def connStage (c : ServiceSetsCache) (B : Backend) (now : Int) (servicePath : String) :
    Except Outcome (ServiceSetsCache × Option ServerSet × List Call) :=
  match c.pathServerSet.Get now servicePath with
  | some s => .ok (c, some s, [])
  | none =>
    match Split servicePath '/' with
    | p0 :: p1 :: p2 :: _ =>
      match B.New p0 p1 p2 c.hosts with
      | none =>
        .error ⟨some ⟨none, some (.errorsNew "serverSets nil")⟩, c,
          [Call.New p0 p1 p2 c.hosts none]⟩
      | some ss =>
        .ok ({ c with pathServerSet := c.pathServerSet.Set now servicePath ss (60 * Minute) },
          some ss, [Call.New p0 p1 p2 c.hosts (some ss)])
    | _ => .error ⟨none, c, []⟩

/-- The method `(*ServiceSetsCache).GetServerSetEntity` (lines 49-87). -/
def GetServerSetEntity (c : ServiceSetsCache) (B : Backend) (now : Int)
    (servicePath : String) : Outcome :=
  if servicePath.length == 0 || !MatchString c.match_ servicePath then
    ⟨some ⟨none, some (.errorsNew (notMatchText servicePath))⟩, c, []⟩
  else
    match connStage c B now servicePath with
    | .error o => o
    | .ok (c1, serverSets, calls) => watchStage c1 B now servicePath serverSets calls

/-! ## The identifier form of the specification -/

/-- A character of `A-Z`, `a-z`, `0-9`, `-` or `_`. -/
def isIdentChar (c : Char) : Prop :=
  ('A' ≤ c ∧ c ≤ 'Z') ∨ ('a' ≤ c ∧ c ≤ 'z') ∨ ('0' ≤ c ∧ c ≤ '9') ∨ c = '-' ∨ c = '_'

/-- The enumerated environments. -/
def environments : List String :=
  ["prod", "release", "releasedr", "staging", "devel", "beta", "alpha"]

/-- The form `role/env/service` in the words of the specification: non-empty `role`
and `service` over the identifier characters, `env` one of the enumerated
environments, exactly two `/` in the whole text. -/
def IsServicePath (raw : String) : Prop :=
  ∃ role env service : String,
    raw = role ++ "/" ++ env ++ "/" ++ service ∧
    role ≠ "" ∧ (∀ ch ∈ role.data, isIdentChar ch) ∧
    env ∈ environments ∧
    service ≠ "" ∧ (∀ ch ∈ service.data, isIdentChar ch) ∧
    raw.data.count '/' = 2

/-! ## The call as a sequence of atomic steps

Every cache operation of go-cache runs under the cache's mutex and every
backend call is a call of its own, so a call of `GetServerSetEntity` is a
sequence of at most eight steps, between which other calls may run. -/

/-- Where a running call of `GetServerSetEntity` stands, with its locals. -/
inductive PC where
  | validate : PC
  | getServerSet : PC
  | newServerSet : PC
  | setServerSet (ss : ServerSet) : PC
  | getWatcher (serverSets : Option ServerSet) : PC
  | callWatch (serverSets : Option ServerSet) : PC
  | setWatcher (w : Watch) : PC
  | readEndpoints (serviceWatch : Option Watch) : PC
  | done (ret : Option Return) : PC
deriving DecidableEq, Repr

/-- One atomic step of a call on the shared cache: the next position, the cache
afterwards and the backend calls made in the step. -/
def step (B : Backend) (now : Int) (servicePath : String) (pc : PC) (c : ServiceSetsCache) :
    PC × ServiceSetsCache × List Call :=
  match pc with
  | .validate =>
    if servicePath.length == 0 || !MatchString c.match_ servicePath then
      (.done (some ⟨none, some (.errorsNew (notMatchText servicePath))⟩), c, [])
    else (.getServerSet, c, [])
  | .getServerSet =>
    match c.pathServerSet.Get now servicePath with
    | some s => (.getWatcher (some s), c, [])
    | none => (.newServerSet, c, [])
  | .newServerSet =>
    match Split servicePath '/' with
    | p0 :: p1 :: p2 :: _ =>
      match B.New p0 p1 p2 c.hosts with
      | none =>
        (.done (some ⟨none, some (.errorsNew "serverSets nil")⟩), c,
          [Call.New p0 p1 p2 c.hosts none])
      | some ss => (.setServerSet ss, c, [Call.New p0 p1 p2 c.hosts (some ss)])
    | _ => (.done none, c, [])
  | .setServerSet ss =>
    (.getWatcher (some ss),
      { c with pathServerSet := c.pathServerSet.Set now servicePath ss (60 * Minute) }, [])
  | .getWatcher serverSets =>
    match c.pathWatcher.Get now servicePath with
    | some w => (.readEndpoints (some w), c, [])
    | none => (.callWatch serverSets, c, [])
  | .callWatch serverSets =>
    match serverSets with
    | none => (.done (some ⟨none, some (.errorsNew "serverSets nil")⟩), c, [])
    | some ss =>
      match B.Watch ss with
      | (some newServiceWatch, none) => (.setWatcher newServiceWatch, c, [Call.Watch ss])
      | (_, err) => (.done (some ⟨none, err.map GoError.backend⟩), c, [Call.Watch ss])
  | .setWatcher w =>
    (.readEndpoints (some w),
      { c with pathWatcher := c.pathWatcher.Set now servicePath w (60 * Minute) }, [])
  | .readEndpoints serviceWatch =>
    match serviceWatch with
    | none => (.done (some ⟨none, some (.errorsNew "serviceWatch nil")⟩), c, [])
    | some w => (.done (some ⟨B.EndpointEntities w, none⟩), c, [])
  | .done ret => (.done ret, c, [])

/-- Several calls for the same path in flight over one cache, each with the
answers the backend gives to it and with its position. -/
structure Machine where
  cache : ServiceSetsCache
  calls : List Call
  threads : List (Backend × PC)

/-- The scheduler lets call number `i` take its next step. -/
def Machine.stepThread (now : Int) (servicePath : String) (m : Machine) (i : Nat) : Machine :=
  match m.threads.get? i with
  | none => m
  | some (B, pc) =>
    let r := step B now servicePath pc m.cache
    { cache := r.2.1, calls := m.calls ++ r.2.2, threads := m.threads.set i (B, r.1) }

/-- The machine after a schedule, a list of the call numbers in the order in which
they take their steps. -/
def Machine.run (now : Int) (servicePath : String) (m : Machine) (schedule : List Nat) :
    Machine :=
  schedule.foldl (Machine.stepThread now servicePath) m

/-- The positions of the calls in flight. -/
def Machine.positions (m : Machine) : List PC := m.threads.map Prod.snd

/-- Calls made one after the other, each with its own backend answers and clock
reading: the returned values in order, the final cache and all backend calls. -/
def runSequential (servicePath : String) :
    ServiceSetsCache → List (Backend × Int) → List (Option Return) × ServiceSetsCache × List Call
  | c, [] => ([], c, [])
  | c, (B, now) :: rest =>
    let o := GetServerSetEntity c B now servicePath
    let r := runSequential servicePath o.cache rest
    (o.ret :: r.1, r.2.1, o.calls ++ r.2.2)

/-! ## Histories -/

/-- The caches that a process can hold together with the backend calls made so
far: `New(hosts)`, then any calls of `GetServerSetEntity` and janitor runs. -/
inductive Reachable (hosts : List String) : ServiceSetsCache → List Call → Prop where
  | init : Reachable hosts (New hosts) []
  | call (c : ServiceSetsCache) (h : List Call) (B : Backend) (now : Int) (p : String) :
      Reachable hosts c h →
      Reachable hosts (GetServerSetEntity c B now p).cache
        (h ++ (GetServerSetEntity c B now p).calls)
  | sweepW (c : ServiceSetsCache) (h : List Call) (now : Int) :
      Reachable hosts c h →
      Reachable hosts (sweepWatchers c now).1 (h ++ (sweepWatchers c now).2)
  | sweepS (c : ServiceSetsCache) (h : List Call) (now : Int) :
      Reachable hosts c h →
      Reachable hosts (sweepServerSets c now).1 (h ++ (sweepServerSets c now).2)

/-! ## main.go: `App.handleEvent` -/

/-- The constant `http.StatusOK`. -/
def StatusOK : Nat := 200

/-- The constant `http.StatusMethodNotAllowed`. -/
def StatusMethodNotAllowed : Nat := 405

/-- The constant `http.StatusInternalServerError`. -/
def StatusInternalServerError : Nat := 500

/-- The function `http.StatusText` on the codes the handler uses. -/
def StatusText (code : Nat) : String :=
  if code = 200 then "OK"
  else if code = 405 then "Method Not Allowed"
  else if code = 500 then "Internal Server Error"
  else ""

/-- What a handler has done to its `http.ResponseWriter`: the header map, the status
passed to `WriteHeader` (`none` while it has not been called) and the body
written. -/
structure ResponseWriter where
  header : List (String × String)
  status : Option Nat
  body : List String
deriving DecidableEq, Repr

namespace ResponseWriter

/-- A writer nothing has been written to. -/
def fresh : ResponseWriter := ⟨[], none, []⟩

/-- The call `w.Header().Set(k, v)`. -/
def headerSet (w : ResponseWriter) (k v : String) : ResponseWriter :=
  { w with header := (k, v) :: w.header.filter (fun p => p.1 != k) }

/-- The call `w.Header().Del(k)`. -/
def headerDel (w : ResponseWriter) (k : String) : ResponseWriter :=
  { w with header := w.header.filter (fun p => p.1 != k) }

/-- The call `w.WriteHeader(code)`; a second call changes nothing. -/
def WriteHeader (w : ResponseWriter) (code : Nat) : ResponseWriter :=
  match w.status with
  | none => { w with status := some code }
  | some _ => w

/-- The call `w.Write(b)`, which first sends status 200 if none was sent. -/
def Write (w : ResponseWriter) (b : String) : ResponseWriter :=
  let w1 := w.WriteHeader StatusOK
  { w1 with body := w1.body ++ [b] }

/-- The status the client receives: net/http sends 200 for a handler that returns
without having called `WriteHeader` or `Write`. -/
def servedStatus (w : ResponseWriter) : Nat := w.status.getD StatusOK

end ResponseWriter

/-- The function `http.Error(w, error, code)`. -/
def httpError (w : ResponseWriter) (error : String) (code : Nat) : ResponseWriter :=
  let w1 := w.headerDel "Content-Length"
  let w2 := w1.headerSet "Content-Type" "text/plain; charset=utf-8"
  let w3 := w2.headerSet "X-Content-Type-Options" "nosniff"
  let w4 := w3.WriteHeader code
  w4.Write (error ++ "\n")

/-- The function `SetCacheControlJson` (main.go lines 208-213). -/
def SetCacheControlJson (w : ResponseWriter) : ResponseWriter :=
  let w1 := w.headerSet "Cache-Control" "no-discovery, no-store, max-age=0, must-revalidate"
  let w2 := w1.headerSet "Pragma" "no-discovery"
  let w3 := w2.headerSet "X-Content-Type-Options" "nosniff"
  w3.headerSet "Content-Type" "application/json; charset=utf-8"

/-- The request as the handler reads it: the method and the route variables of
`mux.Vars(r)`. -/
structure Request where
  Method : String
  Vars : List (String × String)

/-- The map read `vars[k]` of a `map[string]string`: the empty string for a
missing key. -/
def Request.var (r : Request) (k : String) : String := (r.Vars.lookup k).getD ""

/-- The deferred function of `handleEvent` (lines 56-66); `marshal` is
`json.Marshal` on the entity slice. -/
def deferredWrite (marshal : Option (List Entity) → String) (w : ResponseWriter)
    (statusCode : Nat) (services : Option (List Entity)) : ResponseWriter :=
  let w1 := SetCacheControlJson w
  if statusCode = StatusOK then
    let w2 := w1.WriteHeader statusCode
    let w3 := w2.headerSet "Content-Type" "application/json; charset=utf-8"
    w3.Write (marshal services)
  else httpError w1 (StatusText statusCode) statusCode

/-- What a run of the handler leaves behind: the writer, whether the handler
stopped in a panic, the cache and the backend calls. -/
structure Handled where
  w : ResponseWriter
  panicked : Bool
  cache : ServiceSetsCache
  calls : List Call

/-- The method `(*App).handleEvent` (main.go lines 44-83). The local `statusCode`
starts at 500 (line 45). On a lookup error it is set to 405 and the function
returns at line 52, above the `defer` of line 56, so the writer is left as it
was. Otherwise the deferred function runs at the return with the last value
of `statusCode`: 405 for a method other than GET (line 70), else 200
(line 82). -/
def handleEvent (cache : ServiceSetsCache) (B : Backend) (now : Int)
    (marshal : Option (List Entity) → String) (w : ResponseWriter) (r : Request) : Handled :=
  let path := r.var "role" ++ "/" ++ r.var "env" ++ "/" ++ r.var "service"
  let o := GetServerSetEntity cache B now path
  match o.ret with
  | none => ⟨w, true, o.cache, o.calls⟩
  | some ⟨_, some _⟩ => ⟨w, false, o.cache, o.calls⟩
  | some ⟨services, none⟩ =>
    let statusCode := if r.Method != "GET" then StatusMethodNotAllowed else StatusOK
    ⟨deferredWrite marshal w statusCode services, false, o.cache, o.calls⟩

/-! ## Sample backends and requests -/

/-- A backend on which everything succeeds: connection 1, watcher 2, no
registrants. -/
def okBackend : Backend :=
  { New := fun _ _ _ _ => some ⟨1⟩
    Watch := fun _ => (some ⟨2⟩, none)
    EndpointEntities := fun _ => some [] }

/-- A backend whose watch registration fails with an error. -/
def watchFailsBackend : Backend :=
  { New := fun _ _ _ _ => some ⟨1⟩
    Watch := fun _ => (none, some ⟨"zk: could not connect to a server"⟩)
    EndpointEntities := fun _ => some [] }

/-- A backend whose `Watch` yields neither a watcher nor an error. -/
def nilNilBackend : Backend :=
  { New := fun _ _ _ _ => some ⟨1⟩
    Watch := fun _ => (none, none)
    EndpointEntities := fun _ => some [] }

/-- A backend handing out connection 3 and watcher 4. -/
def laterBackend : Backend :=
  { New := fun _ _ _ _ => some ⟨3⟩
    Watch := fun _ => (some ⟨4⟩, none)
    EndpointEntities := fun _ => some [] }

/-- The coordination ensemble of the examples. -/
def sampleHosts : List String := ["zk1:2181"]

/-- A cache whose two entries for "api/prod/search" expire at different times: the
first call (time 0) opens the connection and fails to register the watch, the
second (minute 30) registers the watcher, the third (minute 61) finds the
connection expired and opens a new one while the watcher is still cached. -/
def staggeredCache : ServiceSetsCache :=
  (GetServerSetEntity
    (GetServerSetEntity
      (GetServerSetEntity (New sampleHosts) watchFailsBackend 0 "api/prod/search").cache
      okBackend (30 * Minute) "api/prod/search").cache
    laterBackend (61 * Minute) "api/prod/search").cache

/-! ## Regular-expression matcher: what each operator accepts -/

theorem matchRunes_noMatch (s : List Char) : matchRunes .noMatch s = false := by
  induction s with
  | nil => rfl
  | cons c cs ih => simpa [matchRunes, deriv] using ih

theorem matchRunes_literal (rs s : List Char) :
    matchRunes (.literal rs) s = true ↔ s = rs := by
  induction s generalizing rs with
  | nil => cases rs <;> simp [matchRunes, nullable]
  | cons c cs ih =>
    cases rs with
    | nil => simp [matchRunes, deriv, matchRunes_noMatch]
    | cons r rs =>
      by_cases h : r = c
      · subst h
        simp [matchRunes, deriv, ih]
      · have h' : ¬ c = r := fun e => h e.symm
        simp [matchRunes, deriv, h, h', matchRunes_noMatch]

theorem matchRunes_charClass (R : List (Char × Char)) (s : List Char) :
    matchRunes (.charClass R) s = true ↔ ∃ c, s = [c] ∧ inRanges R c = true := by
  cases s with
  | nil => simp [matchRunes, nullable]
  | cons c cs =>
    by_cases h : inRanges R c = true
    · simp only [matchRunes, deriv, h, if_true, matchRunes_literal]
      constructor
      · intro hcs
        exact ⟨c, by rw [hcs], h⟩
      · rintro ⟨d, hd, _⟩
        simp only [List.cons.injEq] at hd
        exact hd.2
    · simp only [matchRunes, deriv, h, matchRunes_noMatch]
      simp only [Bool.false_eq_true, if_false, matchRunes_noMatch, false_iff]
      rintro ⟨d, hd, hin⟩
      simp only [List.cons.injEq] at hd
      exact h (hd.1 ▸ hin)

theorem matchRunes_alternate (a b : Regexp) (s : List Char) :
    matchRunes (.alternate a b) s = true ↔ matchRunes a s = true ∨ matchRunes b s = true := by
  induction s generalizing a b with
  | nil => simp [matchRunes, nullable]
  | cons c cs ih => simp [matchRunes, deriv, ih]

theorem matchRunes_concat (a b : Regexp) (s : List Char) :
    matchRunes (.concat a b) s = true ↔
      ∃ t u, s = t ++ u ∧ matchRunes a t = true ∧ matchRunes b u = true := by
  induction s generalizing a b with
  | nil =>
    simp only [matchRunes, nullable, Bool.and_eq_true]
    constructor
    · rintro ⟨ha, hb⟩
      exact ⟨[], [], rfl, ha, hb⟩
    · rintro ⟨t, u, htu, ha, hb⟩
      have ht : t = [] := (List.append_eq_nil.mp htu.symm).1
      have hu : u = [] := (List.append_eq_nil.mp htu.symm).2
      subst ht; subst hu
      exact ⟨ha, hb⟩
  | cons c cs ih =>
    have key : (∃ t u, c :: cs = t ++ u ∧ matchRunes a t = true ∧ matchRunes b u = true) ↔
        ((∃ t u, cs = t ++ u ∧ matchRunes (deriv a c) t = true ∧ matchRunes b u = true) ∨
          (nullable a = true ∧ matchRunes (deriv b c) cs = true)) := by
      constructor
      · rintro ⟨t, u, htu, ha, hb⟩
        cases t with
        | nil =>
          right
          simp only [List.nil_append] at htu
          subst htu
          exact ⟨ha, hb⟩
        | cons d t =>
          left
          simp only [List.cons_append, List.cons.injEq] at htu
          obtain ⟨hd, hcs⟩ := htu
          subst hd
          exact ⟨t, u, hcs, ha, hb⟩
      · rintro (⟨t, u, htu, ha, hb⟩ | ⟨hn, hb⟩)
        · exact ⟨c :: t, u, by simp [htu], ha, hb⟩
        · exact ⟨[], c :: cs, rfl, hn, hb⟩
    rw [key]
    by_cases hn : nullable a = true
    · simp only [matchRunes, deriv, hn, if_true, matchRunes_alternate, ih, true_and]
    · simp only [matchRunes, deriv, hn, Bool.false_eq_true, if_false, false_and, or_false]
      exact ih (deriv a c) b

theorem matchRunes_star_charClass (R : List (Char × Char)) (s : List Char) :
    matchRunes (.star (.charClass R)) s = true ↔ ∀ c ∈ s, inRanges R c = true := by
  induction s with
  | nil => simp [matchRunes, nullable]
  | cons c cs ih =>
    have hstep : matchRunes (.star (.charClass R)) (c :: cs)
        = matchRunes (.concat (deriv (.charClass R) c) (.star (.charClass R))) cs := rfl
    rw [hstep, matchRunes_concat]
    by_cases h : inRanges R c = true
    · simp only [deriv, h, if_true, matchRunes_literal, List.mem_cons, forall_eq_or_imp, true_and]
      rw [← ih]
      constructor
      · rintro ⟨t, u, htu, ht, hu⟩
        subst ht
        simpa [htu] using hu
      · intro hcs
        exact ⟨[], cs, rfl, rfl, hcs⟩
    · simp only [deriv, h, Bool.false_eq_true, if_false, matchRunes_noMatch, false_and,
        and_false, exists_false, List.mem_cons, forall_eq_or_imp, false_iff]

theorem matchRunes_plus_charClass (R : List (Char × Char)) (s : List Char) :
    matchRunes (.plus (.charClass R)) s = true ↔ s ≠ [] ∧ ∀ c ∈ s, inRanges R c = true := by
  cases s with
  | nil => simp [matchRunes, nullable]
  | cons c cs =>
    have hstep : matchRunes (.plus (.charClass R)) (c :: cs)
        = matchRunes (.star (.charClass R)) (c :: cs) := rfl
    rw [hstep, matchRunes_star_charClass]
    simp

theorem inRanges_ident_iff (c : Char) :
    inRanges [('a', 'z'), ('A', 'Z'), ('0', '9'), ('-', '-'), ('_', '_')] c = true ↔
      isIdentChar c := by
  have hle : ∀ a b : Char, a ≤ b ↔ a.toNat ≤ b.toNat := by
    intro a b
    show a.val ≤ b.val ↔ _
    rw [UInt32.le_def]
    rfl
  have heq : ∀ a b : Char, a = b ↔ a.toNat = b.toNat := by
    intro a b
    constructor
    · intro h
      rw [h]
    · intro h
      apply Char.ext
      apply UInt32.ext
      exact h
  unfold isIdentChar inRanges
  simp only [List.any_cons, List.any_nil, Bool.or_false, Bool.or_eq_true, Bool.and_eq_true,
    decide_eq_true_eq, hle, heq]
  constructor
  · rintro (h | h | h | h | h)
    · exact Or.inr (Or.inl h)
    · exact Or.inl h
    · exact Or.inr (Or.inr (Or.inl h))
    · exact Or.inr (Or.inr (Or.inr (Or.inl (le_antisymm h.2 h.1))))
    · exact Or.inr (Or.inr (Or.inr (Or.inr (le_antisymm h.2 h.1))))
  · rintro (h | h | h | h | h)
    · exact Or.inr (Or.inl h)
    · exact Or.inl h
    · exact Or.inr (Or.inr (Or.inl h))
    · exact Or.inr (Or.inr (Or.inr (Or.inl ⟨h.ge, h.le⟩)))
    · exact Or.inr (Or.inr (Or.inr (Or.inr ⟨h.ge, h.le⟩)))

theorem matchRunes_identPlus (s : List Char) :
    matchRunes (.plus identClass) s = true ↔ s ≠ [] ∧ ∀ c ∈ s, isIdentChar c := by
  unfold identClass
  rw [matchRunes_plus_charClass]
  simp only [inRanges_ident_iff]

theorem matchRunes_envAlternatives (s : List Char) :
    matchRunes envAlternatives s = true ↔ String.mk s ∈ environments := by
  have hmk : ∀ t : String, String.mk s = t ↔ s = t.data := by
    intro t
    constructor
    · intro h
      rw [← h]
    · intro h
      rw [h]
  unfold envAlternatives environments
  simp only [matchRunes_alternate, matchRunes_literal, List.mem_cons, List.mem_singleton, hmk,
    List.mem_nil_iff, or_false]

theorem not_isIdentChar_slash : ¬ isIdentChar '/' := by
  rw [← inRanges_ident_iff]
  decide

theorem count_slash_ident (s : List Char) (h : ∀ c ∈ s, isIdentChar c) : s.count '/' = 0 := by
  rw [List.count_eq_zero]
  intro hmem
  exact not_isIdentChar_slash (h _ hmem)

theorem count_slash_env (env : String) (h : env ∈ environments) : env.data.count '/' = 0 := by
  unfold environments at h
  simp only [List.mem_cons, List.mem_singleton, List.mem_nil_iff, or_false] at h
  rcases h with h | h | h | h | h | h | h <;> subst h <;> decide

theorem matchString_servicePattern_iff (raw : String) :
    MatchString servicePattern raw = true ↔ IsServicePath raw := by
  unfold MatchString servicePattern IsServicePath
  simp only [matchRunes_concat, matchRunes_identPlus, matchRunes_literal,
    matchRunes_envAlternatives]
  constructor
  · rintro ⟨role, r1, h1, ⟨hrne, hrid⟩, s1, r2, h2, hs1, env, r3, h3, henv, s2, svc, h4, hs2,
      hsne, hsid⟩
    subst hs1; subst hs2
    have hraw : raw.data = role ++ ('/' :: (env ++ ('/' :: svc))) := by
      rw [h1, h2, h3, h4]
      simp
    refine ⟨String.mk role, String.mk env, String.mk svc, ?_, ?_, hrid, henv, ?_, hsid, ?_⟩
    · apply String.ext
      simp [String.data_append, hraw]
    · intro h
      exact hrne (congrArg String.data h)
    · intro h
      exact hsne (congrArg String.data h)
    · rw [hraw]
      have e0 := count_slash_env (String.mk env) henv
      simp only [List.count_append, List.count_cons, count_slash_ident role hrid,
        count_slash_ident svc hsid] at e0 ⊢
      simp [e0]
  · rintro ⟨role, env, svc, hraw, hrne, hrid, henv, hsne, hsid, _⟩
    have hd : raw.data = role.data ++ ('/' :: (env.data ++ ('/' :: svc.data))) := by
      rw [hraw]
      simp [String.data_append]
    refine ⟨role.data, _, hd, ⟨?_, hrid⟩, ['/'], _, rfl, rfl, env.data, _, rfl, henv, ['/'],
      svc.data, rfl, rfl, ?_, hsid⟩
    · intro h
      exact hrne (String.ext h)
    · intro h
      exact hsne (String.ext h)

/-! ## strings.Split on a well-formed identifier -/

theorem splitRunes_of_not_mem (sep : Char) (s : List Char) (h : sep ∉ s) :
    splitRunes sep s = [s] := by
  induction s with
  | nil => rfl
  | cons c cs ih =>
    have hc : ¬ c = sep := fun e => h (by simp [e])
    have hcs : sep ∉ cs := fun m => h (List.mem_cons_of_mem _ m)
    simp [splitRunes, hc, ih hcs]

theorem splitRunes_append_sep (sep : Char) (s rest : List Char) (h : sep ∉ s) :
    splitRunes sep (s ++ sep :: rest) = s :: splitRunes sep rest := by
  induction s with
  | nil => simp [splitRunes]
  | cons c cs ih =>
    have hc : ¬ c = sep := fun e => h (by simp [e])
    have hcs : sep ∉ cs := fun m => h (List.mem_cons_of_mem _ m)
    simp [splitRunes, hc, ih hcs]

theorem slash_not_mem_of_count (s : List Char) (h : s.count '/' = 0) : '/' ∉ s := by
  rw [List.count_eq_zero] at h
  exact h

theorem split_of_isServicePath (raw : String) (h : IsServicePath raw) :
    ∃ role env service : String,
      Split raw '/' = [role, env, service] ∧ raw = role ++ "/" ++ env ++ "/" ++ service := by
  obtain ⟨role, env, svc, hraw, _, hrid, henv, _, hsid, _⟩ := h
  refine ⟨role, env, svc, ?_, hraw⟩
  have hd : raw.data = role.data ++ ('/' :: (env.data ++ ('/' :: svc.data))) := by
    rw [hraw]
    simp [String.data_append]
  have h1 := slash_not_mem_of_count _ (count_slash_ident role.data hrid)
  have h2 := slash_not_mem_of_count _ (count_slash_env env henv)
  have h3 := slash_not_mem_of_count _ (count_slash_ident svc.data hsid)
  unfold Split
  rw [hd, splitRunes_append_sep _ _ _ h1, splitRunes_append_sep _ _ _ h2,
    splitRunes_of_not_mem _ _ h3]
  rfl

/-! ## The validation guard -/

theorem guard_false_iff (c : ServiceSetsCache) (hm : c.match_ = servicePattern) (p : String) :
    (p.length == 0 || !MatchString c.match_ p) = false ↔ IsServicePath p := by
  rw [hm, ← matchString_servicePattern_iff]
  constructor
  · intro h
    simp only [Bool.or_eq_false_iff, Bool.not_eq_false'] at h
    exact h.2
  · intro h
    simp only [Bool.or_eq_false_iff, Bool.not_eq_false', h, and_true]
    cases hp : p.data with
    | nil =>
      unfold MatchString at h
      rw [hp] at h
      exact absurd h (by decide)
    | cons a as =>
      have : p.length = (a :: as).length := by rw [← hp]; rfl
      simp [this]

theorem guard_true_iff (c : ServiceSetsCache) (hm : c.match_ = servicePattern) (p : String) :
    (p.length == 0 || !MatchString c.match_ p) = true ↔ ¬ IsServicePath p := by
  rw [← guard_false_iff c hm p]
  cases (p.length == 0 || !MatchString c.match_ p) <;> simp

theorem GetServerSetEntity_of_invalid (c : ServiceSetsCache) (hm : c.match_ = servicePattern)
    (B : Backend) (now : Int) (p : String) (h : ¬ IsServicePath p) :
    GetServerSetEntity c B now p =
      ⟨some ⟨none, some (.errorsNew (notMatchText p))⟩, c, []⟩ := by
  unfold GetServerSetEntity
  rw [if_pos ((guard_true_iff c hm p).mpr h)]

theorem GetServerSetEntity_of_valid (c : ServiceSetsCache) (hm : c.match_ = servicePattern)
    (B : Backend) (now : Int) (p : String) (h : IsServicePath p) :
    GetServerSetEntity c B now p =
      match connStage c B now p with
      | .error o => o
      | .ok (c1, serverSets, calls) => watchStage c1 B now p serverSets calls := by
  unfold GetServerSetEntity
  have hg := (guard_false_iff c hm p).mpr h
  rw [if_neg (by simp [hg])]

theorem notMatchText_ne (p : String) : "serverSets nil" ≠ notMatchText p := by
  intro h
  have hd := congrArg String.data h
  unfold notMatchText at hd
  simp only [String.data_append] at hd
  have h0 := congrArg List.head? hd
  simp at h0

/-! ## The cache of go-cache -/

theorem Cache.Get_eq_some_iff {α : Type} (c : Cache α) (now : Int) (k : String) (x : α) :
    c.Get now k = some x ↔
      ∃ e, c.lookup k = some ⟨x, e⟩ ∧ Cache.expiredAt now (⟨x, e⟩ : Item α) = false := by
  unfold Cache.Get
  cases h : c.lookup k with
  | none => simp
  | some item =>
    obtain ⟨y, e⟩ := item
    by_cases hx : Cache.expiredAt now (⟨y, e⟩ : Item α) = true
    · simp only [hx, if_true, Option.some.injEq, Item.mk.injEq, false_iff, reduceCtorEq]
      rintro ⟨e1, ⟨hy, he⟩, h1⟩
      subst hy; subst he
      rw [hx] at h1
      exact Bool.noConfusion h1
    · simp only [hx, Bool.false_eq_true, if_false, Option.some.injEq, Item.mk.injEq]
      constructor
      · intro hy
        subst hy
        exact ⟨e, ⟨rfl, rfl⟩, by simpa using hx⟩
      · rintro ⟨e1, ⟨hy, _⟩, _⟩
        exact hy

theorem Cache.lookup_Set_self {α : Type} (c : Cache α) (now : Int) (k : String) (x : α) :
    (c.Set now k x (60 * Minute)).lookup k = some ⟨x, now + 60 * Minute⟩ := by
  have h60 : ¬ (60 * Minute = 0) := by decide
  have hpos : 60 * Minute > 0 := by decide
  simp [Cache.Set, Cache.lookup, List.lookup, h60, hpos]

theorem Cache.Get_Set_self {α : Type} (c : Cache α) (now : Int) (k : String) (x : α) :
    (c.Set now k x (60 * Minute)).Get now k = some x := by
  rw [Cache.Get_eq_some_iff]
  refine ⟨now + 60 * Minute, Cache.lookup_Set_self c now k x, ?_⟩
  have hpos : (0 : Int) < 60 * Minute := by decide
  simp only [Cache.expiredAt, Bool.and_eq_false_imp, decide_eq_true_eq, decide_eq_false_iff_not]
  intro _
  omega

/-! ## The two stages of `GetServerSetEntity`, case by case -/

theorem connStage_spec (c : ServiceSetsCache) (B : Backend) (now : Int) (p : String) :
    (∃ ss, c.pathServerSet.Get now p = some ss ∧ connStage c B now p = .ok (c, some ss, [])) ∨
    (c.pathServerSet.Get now p = none ∧
      ∃ p0 p1 p2 rest, Split p '/' = p0 :: p1 :: p2 :: rest ∧
        ((B.New p0 p1 p2 c.hosts = none ∧
            connStage c B now p =
              .error ⟨some ⟨none, some (.errorsNew "serverSets nil")⟩, c,
                [Call.New p0 p1 p2 c.hosts none]⟩) ∨
          (∃ ss, B.New p0 p1 p2 c.hosts = some ss ∧
            connStage c B now p =
              .ok ({ c with pathServerSet := c.pathServerSet.Set now p ss (60 * Minute) },
                some ss, [Call.New p0 p1 p2 c.hosts (some ss)])))) ∨
    (c.pathServerSet.Get now p = none ∧
      (∀ p0 p1 p2 rest, Split p '/' ≠ p0 :: p1 :: p2 :: rest) ∧
      connStage c B now p = .error ⟨none, c, []⟩) := by
  unfold connStage
  cases hG : c.pathServerSet.Get now p with
  | some ss => exact Or.inl ⟨ss, rfl, rfl⟩
  | none =>
    right
    cases hS : Split p '/' with
    | nil => exact Or.inr ⟨rfl, by simp, rfl⟩
    | cons p0 l1 =>
      cases l1 with
      | nil => exact Or.inr ⟨rfl, by simp, rfl⟩
      | cons p1 l2 =>
        cases l2 with
        | nil => exact Or.inr ⟨rfl, by simp, rfl⟩
        | cons p2 rest =>
          left
          refine ⟨rfl, p0, p1, p2, rest, rfl, ?_⟩
          cases hN : B.New p0 p1 p2 c.hosts with
          | none => exact Or.inl ⟨rfl, by simp only [hN]⟩
          | some ss => exact Or.inr ⟨ss, rfl, by simp only [hN]⟩

theorem watchStage_spec (c : ServiceSetsCache) (B : Backend) (now : Int) (p : String)
    (serverSets : Option ServerSet) (calls : List Call) :
    (∃ w, c.pathWatcher.Get now p = some w ∧
      watchStage c B now p serverSets calls = ⟨some ⟨B.EndpointEntities w, none⟩, c, calls⟩) ∨
    (c.pathWatcher.Get now p = none ∧ serverSets = none ∧
      watchStage c B now p serverSets calls =
        ⟨some ⟨none, some (.errorsNew "serverSets nil")⟩, c, calls⟩) ∨
    (c.pathWatcher.Get now p = none ∧ ∃ ss, serverSets = some ss ∧
      ((∃ w, B.Watch ss = (some w, none) ∧
          watchStage c B now p serverSets calls =
            ⟨some ⟨B.EndpointEntities w, none⟩,
              { c with pathWatcher := c.pathWatcher.Set now p w (60 * Minute) },
              calls ++ [Call.Watch ss]⟩) ∨
        (((B.Watch ss).2 ≠ none ∨ (B.Watch ss).1 = none) ∧
          watchStage c B now p serverSets calls =
            ⟨some ⟨none, (B.Watch ss).2.map GoError.backend⟩, c, calls ++ [Call.Watch ss]⟩))) := by
  cases hG : c.pathWatcher.Get now p with
  | some w => exact Or.inl ⟨w, rfl, by simp only [watchStage, readEndpoints, hG]⟩
  | none =>
    right
    cases serverSets with
    | none => exact Or.inl ⟨rfl, rfl, by simp only [watchStage, hG]⟩
    | some ss =>
      right
      refine ⟨rfl, ss, rfl, ?_⟩
      cases hW : B.Watch ss with
      | mk w e =>
        cases w with
        | none => exact Or.inr ⟨Or.inr rfl, by simp only [watchStage, hG, hW]⟩
        | some w =>
          cases e with
          | none => exact Or.inl ⟨w, rfl, by simp only [watchStage, readEndpoints, hG, hW]⟩
          | some e => exact Or.inr ⟨Or.inl (by simp), by simp only [watchStage, hG, hW]⟩

/-! ## What a call leaves untouched -/

theorem watchStage_pathServerSet (c : ServiceSetsCache) (B : Backend) (now : Int) (p : String)
    (serverSets : Option ServerSet) (calls : List Call) :
    (watchStage c B now p serverSets calls).cache.pathServerSet = c.pathServerSet := by
  rcases watchStage_spec c B now p serverSets calls with
    ⟨w, _, h⟩ | ⟨_, _, h⟩ | ⟨_, ss1, _, ⟨w, _, h⟩ | ⟨_, h⟩⟩ <;> rw [h]

theorem watchStage_of_hit (c : ServiceSetsCache) (B : Backend) (now : Int) (p : String)
    (serverSets : Option ServerSet) (calls : List Call) (w : Watch)
    (h : c.pathWatcher.Get now p = some w) :
    watchStage c B now p serverSets calls = ⟨some ⟨B.EndpointEntities w, none⟩, c, calls⟩ := by
  simp only [watchStage, readEndpoints, h]

theorem connStage_keeps (c : ServiceSetsCache) (B : Backend) (now : Int) (p : String) :
    (∀ o, connStage c B now p = .error o → o.cache = c) ∧
    (∀ c1 ss calls, connStage c B now p = .ok (c1, ss, calls) →
      c1.pathWatcher = c.pathWatcher ∧ c1.hosts = c.hosts ∧ c1.match_ = c.match_) := by
  rcases connStage_spec c B now p with
    ⟨ss, _, h⟩ | ⟨_, p0, p1, p2, rest, _, ⟨_, h⟩ | ⟨ss, _, h⟩⟩ | ⟨_, _, h⟩ <;> rw [h] <;>
  refine ⟨fun o ho => ?_, fun c1 ss1 calls ho => ?_⟩ <;> cases ho <;>
  first | rfl | exact ⟨rfl, rfl, rfl⟩

theorem Cache.Get_eq_none_of_expired {α : Type} (c : Cache α) (now : Int) (k : String)
    (x : α) (e : Int) (h : c.lookup k = some ⟨x, e⟩) (he0 : 0 < e) (he : e < now) :
    c.Get now k = none := by
  simp [Cache.Get, h, Cache.expiredAt, he0, he]

/-! ## The janitor on a map with pairwise different keys -/

theorem lookup_filter_of_expired {α : Type} (l : List (String × Item α)) (ts : Int)
    (k : String) (item : Item α) (hnd : (l.map Prod.fst).Nodup)
    (h : l.lookup k = some item) (hx : Cache.expiredAt ts item = true) :
    (l.filter (fun p => !Cache.expiredAt ts p.2)).lookup k = none := by
  induction l with
  | nil => simp at h
  | cons a l ih =>
    obtain ⟨ka, ia⟩ := a
    simp only [List.map_cons, List.nodup_cons] at hnd
    by_cases hk : k = ka
    · subst hk
      simp only [List.lookup, beq_self_eq_true, Option.some.injEq] at h
      subst h
      simp only [List.filter, hx, Bool.not_true]
      rw [List.lookup_eq_none_iff]
      intro q hq
      have hq1 := List.mem_of_mem_filter hq
      have hne : ¬ q.1 = k := by
        intro e
        exact hnd.1 (e ▸ List.mem_map_of_mem Prod.fst hq1)
      simpa using fun e => hne e.symm
    · have hb : (k == ka) = false := by simpa using hk
      simp only [List.lookup, hb] at h
      by_cases hxa : Cache.expiredAt ts ia = true
      · simp only [List.filter, hxa, Bool.not_true]
        exact ih hnd.2 h
      · simp only [List.filter, hxa, Bool.not_false, List.lookup, hb]
        exact ih hnd.2 h

theorem sweepWatchers_calls (c : ServiceSetsCache) (ts : Int) :
    (sweepWatchers c ts).2 =
      (c.pathWatcher.items.filter (fun p => Cache.expiredAt ts p.2)).map
        (fun p => Call.Close p.2.Object) := by
  simp only [sweepWatchers, Cache.DeleteExpired, onEvictedWatcher]
  induction c.pathWatcher.items.filter (fun p => Cache.expiredAt ts p.2) with
  | nil => rfl
  | cons a l ih => simp [List.flatMap_cons, ih]

theorem closeCount_zero (l : List (String × Item Watch)) (ts : Int) (w : Watch)
    (h : ∀ q ∈ l, q.2.Object ≠ w) :
    ((l.filter (fun p => Cache.expiredAt ts p.2)).map
      (fun p => Call.Close p.2.Object)).count (Call.Close w) = 0 := by
  rw [List.count_eq_zero]
  intro hmem
  rw [List.mem_map] at hmem
  obtain ⟨q, hq, hqw⟩ := hmem
  have hq1 := List.mem_of_mem_filter hq
  simp only [Call.Close.injEq] at hqw
  exact h q hq1 hqw

theorem closeCount_one (l : List (String × Item Watch)) (ts : Int) (k : String) (w : Watch)
    (e : Int) (hnd : (l.map Prod.fst).Nodup) (h : l.lookup k = some ⟨w, e⟩)
    (hx : Cache.expiredAt ts (⟨w, e⟩ : Item Watch) = true)
    (honly : ∀ q ∈ l, q.2.Object = w → q.1 = k) :
    ((l.filter (fun p => Cache.expiredAt ts p.2)).map
      (fun p => Call.Close p.2.Object)).count (Call.Close w) = 1 := by
  induction l with
  | nil => simp at h
  | cons a l ih =>
    obtain ⟨ka, ia⟩ := a
    simp only [List.map_cons, List.nodup_cons] at hnd
    by_cases hk : k = ka
    · subst hk
      simp only [List.lookup, beq_self_eq_true, Option.some.injEq] at h
      subst h
      have hrest : ∀ q ∈ l, q.2.Object ≠ w := by
        intro q hq hqw
        have hqk : q.1 = k := honly q (List.mem_cons_of_mem _ hq) hqw
        exact hnd.1 (hqk ▸ List.mem_map_of_mem Prod.fst hq)
      simp only [List.filter, hx, List.map_cons, List.count_cons_self,
        closeCount_zero l ts w hrest]
    · have hb : (k == ka) = false := by simpa using hk
      simp only [List.lookup, hb] at h
      have hia : ia.Object ≠ w := by
        intro hw
        exact hk (honly (ka, ia) (List.mem_cons_self _ _) hw).symm
      have hrec := ih hnd.2 h (fun q hq => honly q (List.mem_cons_of_mem _ hq))
      by_cases hxa : Cache.expiredAt ts ia = true
      · simp only [List.filter, hxa, List.map_cons]
        rw [List.count_cons_of_ne (by simpa using fun e => hia e.symm)]
        exact hrec
      · simp only [List.filter, hxa]
        exact hrec

/-! ## Calls on cached and on expired entries -/

theorem GetServerSetEntity_of_hits (c : ServiceSetsCache) (hm : c.match_ = servicePattern)
    (B : Backend) (now : Int) (id : String) (hv : IsServicePath id)
    (ss : ServerSet) (w : Watch)
    (h1 : c.pathServerSet.Get now id = some ss) (h2 : c.pathWatcher.Get now id = some w) :
    GetServerSetEntity c B now id = ⟨some ⟨B.EndpointEntities w, none⟩, c, []⟩ := by
  rw [GetServerSetEntity_of_valid c hm B now id hv]
  simp only [connStage, watchStage, readEndpoints, h1, h2]

theorem watchStage_calls_of_miss (c : ServiceSetsCache) (B : Backend) (now : Int) (p : String)
    (ss : ServerSet) (calls : List Call) (h : c.pathWatcher.Get now p = none) :
    (watchStage c B now p (some ss) calls).calls = calls ++ [Call.Watch ss] := by
  rcases watchStage_spec c B now p (some ss) calls with
    ⟨w, hw, _⟩ | ⟨_, hnone, _⟩ | ⟨_, ss1, hss, ⟨w, _, hr⟩ | ⟨_, hr⟩⟩
  · rw [h] at hw
    exact Option.noConfusion hw
  · exact Option.noConfusion hnone
  · cases hss
    rw [hr]
  · cases hss
    rw [hr]

theorem watchStage_calls_extends (c : ServiceSetsCache) (B : Backend) (now : Int) (p : String)
    (serverSets : Option ServerSet) (calls : List Call) :
    (watchStage c B now p serverSets calls).calls = calls ∨
      ∃ ss, serverSets = some ss ∧
        (watchStage c B now p serverSets calls).calls = calls ++ [Call.Watch ss] := by
  rcases watchStage_spec c B now p serverSets calls with
    ⟨w, _, hr⟩ | ⟨_, _, hr⟩ | ⟨_, ss1, hss, ⟨w, _, hr⟩ | ⟨_, hr⟩⟩
  · exact Or.inl (by rw [hr])
  · exact Or.inl (by rw [hr])
  · exact Or.inr ⟨ss1, hss, by rw [hr]⟩
  · exact Or.inr ⟨ss1, hss, by rw [hr]⟩

theorem Cache.Get_of_not_after {α : Type} (c : Cache α) (t : Int) (k : String) (x : α)
    (e : Int) (h : c.lookup k = some ⟨x, e⟩) (ht : t ≤ e) : c.Get t k = some x := by
  rw [Cache.Get_eq_some_iff]
  refine ⟨e, h, ?_⟩
  simp only [Cache.expiredAt, Bool.and_eq_false_imp, decide_eq_true_eq, decide_eq_false_iff_not]
  intro _
  omega

/-! ## Histories: what every reachable cache satisfies -/

theorem GetServerSetEntity_keeps (c : ServiceSetsCache) (B : Backend) (now : Int) (p : String) :
    (GetServerSetEntity c B now p).cache.hosts = c.hosts ∧
    (GetServerSetEntity c B now p).cache.match_ = c.match_ := by
  unfold GetServerSetEntity
  split
  · exact ⟨rfl, rfl⟩
  · have hk := connStage_keeps c B now p
    cases hc : connStage c B now p with
    | error o => simp only []; rw [hk.1 o hc]; exact ⟨rfl, rfl⟩
    | ok r =>
      obtain ⟨c1, ss, calls⟩ := r
      have h1 := hk.2 c1 ss calls hc
      simp only []
      rcases watchStage_spec c1 B now p ss calls with
        ⟨w, _, hr⟩ | ⟨_, _, hr⟩ | ⟨_, ss1, _, ⟨w, _, hr⟩ | ⟨_, hr⟩⟩ <;> rw [hr] <;>
      exact ⟨h1.2.1, h1.2.2⟩

theorem reachable_inv (hosts : List String) (c : ServiceSetsCache) (h : List Call)
    (hr : Reachable hosts c h) :
    c.hosts = hosts ∧ c.match_ = servicePattern ∧
    ∀ q ∈ c.pathServerSet.items, ∃ role env service,
      Split q.1 '/' = [role, env, service] ∧
      Call.New role env service hosts (some q.2.Object) ∈ h := by
  induction hr with
  | init => exact ⟨rfl, rfl, by simp [New, Cache.New]⟩
  | call c h B now p _ ih =>
    obtain ⟨ih1, ih2, ih3⟩ := ih
    have hk := GetServerSetEntity_keeps c B now p
    refine ⟨hk.1.trans ih1, hk.2.trans ih2, ?_⟩
    have hold : ∀ q ∈ c.pathServerSet.items, ∃ role env service,
        Split q.1 '/' = [role, env, service] ∧
        Call.New role env service hosts (some q.2.Object) ∈
          h ++ (GetServerSetEntity c B now p).calls := by
      intro q hq
      obtain ⟨r, e, sv, h1, h2⟩ := ih3 q hq
      exact ⟨r, e, sv, h1, List.mem_append_left _ h2⟩
    by_cases hv : IsServicePath p
    · have hcs := connStage_keeps c B now p
      rw [GetServerSetEntity_of_valid c ih2 B now p hv]
      rw [GetServerSetEntity_of_valid c ih2 B now p hv] at hold
      rcases connStage_spec c B now p with
        ⟨ss, _, hc⟩ | ⟨_, p0, p1, p2, rest, hs, ⟨_, hc⟩ | ⟨ss, _, hc⟩⟩ | ⟨_, _, hc⟩
      · rw [hc] at hold ⊢
        simp only [] at hold ⊢
        rw [watchStage_pathServerSet]
        exact hold
      · rw [hc] at hold ⊢
        exact hold
      · rw [hc] at hold ⊢
        simp only [] at hold ⊢
        rw [watchStage_pathServerSet]
        obtain ⟨r, e, sv, hs3, _⟩ := split_of_isServicePath p hv
        rw [hs3] at hs
        simp only [List.cons.injEq] at hs
        obtain ⟨hr0, he0, hsv0, _⟩ := hs
        subst hr0; subst he0; subst hsv0
        have hcalls : Call.New r e sv hosts (some ss) ∈
            h ++ (watchStage
              { c with pathServerSet := c.pathServerSet.Set now p ss (60 * Minute) } B now p
              (some ss) [Call.New r e sv c.hosts (some ss)]).calls := by
          have helt : Call.New r e sv hosts (some ss) = Call.New r e sv c.hosts (some ss) := by
            rw [ih1]
          apply List.mem_append_right
          rw [helt]
          rcases watchStage_calls_extends
              { c with pathServerSet := c.pathServerSet.Set now p ss (60 * Minute) } B now p
              (some ss) [Call.New r e sv c.hosts (some ss)] with hx | ⟨ss1, _, hx⟩
          · rw [hx]; simp
          · rw [hx]; simp
        intro q hq
        simp only [Cache.Set, List.mem_cons] at hq
        rcases hq with hq | hq
        · subst hq
          exact ⟨r, e, sv, hs3, hcalls⟩
        · exact hold q (List.mem_of_mem_filter hq)
      · rw [hc] at hold ⊢
        exact hold
    · rw [GetServerSetEntity_of_invalid c ih2 B now p hv] at hold ⊢
      exact hold
  | sweepW c h now _ ih =>
    obtain ⟨ih1, ih2, ih3⟩ := ih
    refine ⟨ih1, ih2, ?_⟩
    intro q hq
    obtain ⟨r, e, sv, h1, h2⟩ := ih3 q hq
    exact ⟨r, e, sv, h1, List.mem_append_left _ h2⟩
  | sweepS c h now _ ih =>
    obtain ⟨ih1, ih2, ih3⟩ := ih
    refine ⟨ih1, ih2, ?_⟩
    intro q hq
    have hq1 : q ∈ c.pathServerSet.items := List.mem_of_mem_filter hq
    obtain ⟨r, e, sv, h1, h2⟩ := ih3 q hq1
    exact ⟨r, e, sv, h1, List.mem_append_left _ h2⟩

theorem mem_items_of_Get {α : Type} (c : Cache α) (now : Int) (k : String) (x : α)
    (h : c.Get now k = some x) : ∃ e, (k, (⟨x, e⟩ : Item α)) ∈ c.items := by
  obtain ⟨e, hl, _⟩ := (Cache.Get_eq_some_iff c now k x).mp h
  refine ⟨e, ?_⟩
  unfold Cache.lookup at hl
  generalize c.items = l at hl
  induction l with
  | nil => simp at hl
  | cons a l ih =>
    obtain ⟨ka, ia⟩ := a
    by_cases hk : k = ka
    · subst hk
      simp only [List.lookup, beq_self_eq_true, Option.some.injEq] at hl
      subst hl
      exact List.mem_cons_self _ _
    · have hb : (k == ka) = false := by simpa using hk
      simp only [List.lookup, hb] at hl
      exact List.mem_cons_of_mem _ (ih hl)

/-! ## One call alone on the step machine -/

theorem run_step (B : Backend) (now : Int) (p : String) (c : ServiceSetsCache)
    (calls : List Call) (pc : PC) (n : Nat) :
    Machine.run now p ⟨c, calls, [(B, pc)]⟩ (List.replicate (n + 1) 0) =
      Machine.run now p
        ⟨(step B now p pc c).2.1, calls ++ (step B now p pc c).2.2,
          [(B, (step B now p pc c).1)]⟩ (List.replicate n 0) := rfl

theorem run_done (B : Backend) (now : Int) (p : String) (c : ServiceSetsCache)
    (calls : List Call) (ret : Option Return) (n : Nat) :
    Machine.run now p ⟨c, calls, [(B, .done ret)]⟩ (List.replicate n 0) =
      ⟨c, calls, [(B, .done ret)]⟩ := by
  induction n with
  | zero => rfl
  | succ n ih =>
    rw [run_step]
    simp only [step, List.append_nil]
    exact ih

theorem run_from_readEndpoints (B : Backend) (now : Int) (p : String) (c : ServiceSetsCache)
    (calls : List Call) (sw : Option Watch) (n : Nat) :
    Machine.run now p ⟨c, calls, [(B, .readEndpoints sw)]⟩ (List.replicate (n + 1) 0) =
      ⟨(readEndpoints c B sw calls).cache, (readEndpoints c B sw calls).calls,
        [(B, .done (readEndpoints c B sw calls).ret)]⟩ := by
  rw [run_step]
  cases sw <;> simp only [step, readEndpoints, List.append_nil, run_done]

theorem run_from_getWatcher (B : Backend) (now : Int) (p : String) (c : ServiceSetsCache)
    (calls : List Call) (serverSets : Option ServerSet) (n : Nat) :
    Machine.run now p ⟨c, calls, [(B, .getWatcher serverSets)]⟩ (List.replicate (n + 4) 0) =
      ⟨(watchStage c B now p serverSets calls).cache,
        (watchStage c B now p serverSets calls).calls,
        [(B, .done (watchStage c B now p serverSets calls).ret)]⟩ := by
  rw [run_step]
  cases hG : c.pathWatcher.Get now p with
  | some w =>
    simp only [step, hG, List.append_nil, watchStage]
    exact run_from_readEndpoints B now p c calls (some w) (n + 2)
  | none =>
    simp only [step, hG, List.append_nil, watchStage]
    rw [run_step]
    cases serverSets with
    | none => simp only [step, List.append_nil, run_done]
    | some ss =>
      rcases hB : B.Watch ss with ⟨_ | w, _ | e⟩
      · simp only [step, hB, run_done]
      · simp only [step, hB, run_done]
      · simp only [step, hB]
        rw [run_step]
        simp only [step, List.append_nil]
        exact run_from_readEndpoints B now p _ _ (some w) n
      · simp only [step, hB, run_done]

theorem run_single_thread (c : ServiceSetsCache) (B : Backend) (now : Int) (p : String) :
    Machine.run now p ⟨c, [], [(B, .validate)]⟩ (List.replicate 8 0) =
      ⟨(GetServerSetEntity c B now p).cache, (GetServerSetEntity c B now p).calls,
        [(B, .done (GetServerSetEntity c B now p).ret)]⟩ := by
  rw [show (8 : Nat) = 7 + 1 from rfl, run_step]
  unfold GetServerSetEntity
  by_cases hg : (p.length == 0 || !MatchString c.match_ p) = true
  · simp only [step, hg, if_true, List.append_nil, run_done]
  · simp only [step, hg, if_false, Bool.false_eq_true, List.append_nil]
    rw [show (7 : Nat) = 6 + 1 from rfl, run_step]
    cases hG : c.pathServerSet.Get now p with
    | some ss =>
      simp only [step, hG, connStage, List.append_nil]
      exact run_from_getWatcher B now p c [] (some ss) 2
    | none =>
      simp only [step, hG, connStage, List.append_nil]
      rw [show (6 : Nat) = 5 + 1 from rfl, run_step]
      rcases hS : Split p '/' with _ | ⟨p0, _ | ⟨p1, _ | ⟨p2, rest⟩⟩⟩
      · simp only [step, hS, List.append_nil, run_done]
      · simp only [step, hS, List.append_nil, run_done]
      · simp only [step, hS, List.append_nil, run_done]
      · cases hN : B.New p0 p1 p2 c.hosts with
        | none => simp only [step, hS, hN, List.nil_append, run_done]
        | some ss =>
          simp only [step, hS, hN, List.nil_append]
          rw [show (5 : Nat) = 4 + 1 from rfl, run_step]
          simp only [step, List.append_nil]
          exact run_from_getWatcher B now p _ _ (some ss) 0

/-! ## Claims -/

/-- C1: `GetServerSetEntity(raw)` returns the validation error
"Service '<raw>', Not Match " if and only if `raw` is not of the form
role/env/service (non-empty role and service over `A-Z a-z 0-9 - _`, env one of
the seven enumerated names, exactly two `/`). The empty string, "api//search"
and "api/qa/search" are rejected; "api/prod/search" passes validation. -/
theorem C1_validation_error_iff (c : ServiceSetsCache) (hm : c.match_ = servicePattern)
    (B : Backend) (now : Int) (raw : String) :
    ((GetServerSetEntity c B now raw).ret =
        some ⟨none, some (.errorsNew ("Service '" ++ raw ++ "', Not Match "))⟩ ↔
      ¬ IsServicePath raw) ∧
    (GetServerSetEntity c B now "").ret =
      some ⟨none, some (.errorsNew "Service '', Not Match ")⟩ ∧
    (GetServerSetEntity c B now "api//search").ret =
      some ⟨none, some (.errorsNew "Service 'api//search', Not Match ")⟩ ∧
    (GetServerSetEntity c B now "api/qa/search").ret =
      some ⟨none, some (.errorsNew "Service 'api/qa/search', Not Match ")⟩ ∧
    (GetServerSetEntity c B now "api/prod/search").ret ≠
      some ⟨none, some (.errorsNew "Service 'api/prod/search', Not Match ")⟩ := by
  have hrej : ∀ p : String, MatchString servicePattern p = false →
      (GetServerSetEntity c B now p).ret =
        some ⟨none, some (.errorsNew (notMatchText p))⟩ := by
    intro p hp
    have hnot : ¬ IsServicePath p := by
      rw [← matchString_servicePattern_iff, hp]
      exact Bool.false_ne_true
    rw [GetServerSetEntity_of_invalid c hm B now p hnot]
  have hvalid : ∀ p : String, IsServicePath p →
      (GetServerSetEntity c B now p).ret ≠
        some ⟨none, some (.errorsNew (notMatchText p))⟩ := by
    intro p hp
    have hne := notMatchText_ne p
    have hw : ∀ (c1 : ServiceSetsCache) (ss : Option ServerSet) (calls : List Call),
        (watchStage c1 B now p ss calls).ret ≠
          some ⟨none, some (.errorsNew (notMatchText p))⟩ := by
      intro c1 ss calls
      rcases watchStage_spec c1 B now p ss calls with
        ⟨w, _, h⟩ | ⟨_, _, h⟩ | ⟨_, ss1, _, ⟨w, _, h⟩ | ⟨_, h⟩⟩
      · rw [h]; simp
      · rw [h]; simpa using hne
      · rw [h]; simp
      · rw [h]
        cases (B.Watch ss1).2 <;> simp
    rw [GetServerSetEntity_of_valid c hm B now p hp]
    rcases connStage_spec c B now p with
      ⟨ss, _, h⟩ | ⟨_, p0, p1, p2, rest, _, ⟨_, h⟩ | ⟨ss, _, h⟩⟩ | ⟨_, _, h⟩
    · rw [h]; exact hw _ _ _
    · rw [h]; simpa using hne
    · rw [h]; exact hw _ _ _
    · rw [h]; simp
  refine ⟨⟨?_, ?_⟩, hrej "" (by decide), hrej "api//search" (by decide),
    hrej "api/qa/search" (by decide), ?_⟩
  · intro h hp
    exact hvalid raw hp h
  · intro h
    rw [GetServerSetEntity_of_invalid c hm B now raw h]
    rfl
  · exact hvalid "api/prod/search" ((matchString_servicePattern_iff _).mp (by decide))

/-- Witness of C1 on the cache built by `New`. -/
theorem C1_validation_error_iff_witness :
    (GetServerSetEntity (New sampleHosts) okBackend 0 "api/qa/search").ret =
      some ⟨none, some (.errorsNew "Service 'api/qa/search', Not Match ")⟩ :=
  (C1_validation_error_iff (New sampleHosts) rfl okBackend 0 "").2.2.2.1

/-- C3: for every raw string that fails validation and every cache state, the call
returns a nil result with a non-nil error, makes no backend call and leaves
the cache, hence both registries, exactly as it was. -/
theorem C3_invalid_no_effect (c : ServiceSetsCache) (hm : c.match_ = servicePattern)
    (B : Backend) (now : Int) (raw : String) (h : ¬ IsServicePath raw) :
    (∃ e, (GetServerSetEntity c B now raw).ret = some ⟨none, some e⟩) ∧
    (GetServerSetEntity c B now raw).calls = [] ∧
    (GetServerSetEntity c B now raw).cache.pathServerSet = c.pathServerSet ∧
    (GetServerSetEntity c B now raw).cache.pathWatcher = c.pathWatcher ∧
    (GetServerSetEntity c B now raw).cache = c := by
  rw [GetServerSetEntity_of_invalid c hm B now raw h]
  exact ⟨⟨_, rfl⟩, rfl, rfl, rfl, rfl⟩

/-- Witness of C3: "api/qa/search" on a cache that already holds entries. -/
theorem C3_invalid_no_effect_witness :
    (∃ e, (GetServerSetEntity
        (GetServerSetEntity (New sampleHosts) okBackend 0 "api/prod/search").cache
        laterBackend 5 "api/qa/search").ret = some ⟨none, some e⟩) ∧
    (GetServerSetEntity
        (GetServerSetEntity (New sampleHosts) okBackend 0 "api/prod/search").cache
        laterBackend 5 "api/qa/search").calls = [] ∧
    (GetServerSetEntity
        (GetServerSetEntity (New sampleHosts) okBackend 0 "api/prod/search").cache
        laterBackend 5 "api/qa/search").cache.pathServerSet =
      (GetServerSetEntity (New sampleHosts) okBackend 0 "api/prod/search").cache.pathServerSet ∧
    (GetServerSetEntity
        (GetServerSetEntity (New sampleHosts) okBackend 0 "api/prod/search").cache
        laterBackend 5 "api/qa/search").cache.pathWatcher =
      (GetServerSetEntity (New sampleHosts) okBackend 0 "api/prod/search").cache.pathWatcher ∧
    (GetServerSetEntity
        (GetServerSetEntity (New sampleHosts) okBackend 0 "api/prod/search").cache
        laterBackend 5 "api/qa/search").cache =
      (GetServerSetEntity (New sampleHosts) okBackend 0 "api/prod/search").cache :=
  C3_invalid_no_effect _ (by decide) laterBackend 5 "api/qa/search"
    (fun h => absurd ((matchString_servicePattern_iff _).mpr h) (by decide))

/-- C2: for a valid identifier whose connection entry and watcher entry are both
cached and unexpired at the time of the call (as they are for a second call
made within the expiry of a first successful one), the call makes no backend
call, leaves the cache unchanged and returns the current endpoint entities of
the cached watcher with a nil error. -/
theorem C2_cached_hit (c : ServiceSetsCache) (hm : c.match_ = servicePattern)
    (B : Backend) (now : Int) (id : String) (hv : IsServicePath id)
    (ss : ServerSet) (w : Watch)
    (h1 : c.pathServerSet.Get now id = some ss) (h2 : c.pathWatcher.Get now id = some w) :
    (GetServerSetEntity c B now id).calls = [] ∧
    (GetServerSetEntity c B now id).cache = c ∧
    (GetServerSetEntity c B now id).ret = some ⟨B.EndpointEntities w, none⟩ := by
  rw [GetServerSetEntity_of_hits c hm B now id hv ss w h1 h2]
  exact ⟨rfl, rfl, rfl⟩

/-- Witness of C2: a first call at time 0 succeeds, the second comes 30 minutes
later with other backend answers at hand. -/
theorem C2_cached_hit_witness :
    (GetServerSetEntity (New sampleHosts) okBackend 0 "api/prod/search").ret =
      some ⟨some [], none⟩ ∧
    (GetServerSetEntity
        (GetServerSetEntity (New sampleHosts) okBackend 0 "api/prod/search").cache
        laterBackend (30 * Minute) "api/prod/search").calls = [] ∧
    (GetServerSetEntity
        (GetServerSetEntity (New sampleHosts) okBackend 0 "api/prod/search").cache
        laterBackend (30 * Minute) "api/prod/search").cache =
      (GetServerSetEntity (New sampleHosts) okBackend 0 "api/prod/search").cache ∧
    (GetServerSetEntity
        (GetServerSetEntity (New sampleHosts) okBackend 0 "api/prod/search").cache
        laterBackend (30 * Minute) "api/prod/search").ret =
      some ⟨laterBackend.EndpointEntities ⟨2⟩, none⟩ :=
  ⟨by decide,
    C2_cached_hit _ (by decide) laterBackend (30 * Minute) "api/prod/search"
      ((matchString_servicePattern_iff _).mp (by decide)) ⟨1⟩ ⟨2⟩ (by decide) (by decide)⟩

/-- C4 at the failing input: on an empty cache, with a `Watch` that yields neither a
watcher nor an error, the call for "api/prod/search" returns a nil result with
a nil error although no watcher was obtained and none is held afterwards. -/
theorem C4_nil_watcher_nil_error :
    (nilNilBackend.Watch ⟨1⟩ = (none, none)) ∧
    (GetServerSetEntity (New sampleHosts) nilNilBackend 0 "api/prod/search").ret =
      some ⟨none, none⟩ ∧
    (GetServerSetEntity (New sampleHosts) nilNilBackend 0
      "api/prod/search").cache.pathWatcher.lookup "api/prod/search" = none ∧
    (GetServerSetEntity (New sampleHosts) nilNilBackend 0 "api/prod/search").calls =
      [Call.New "api" "prod" "search" sampleHosts (some ⟨1⟩), Call.Watch ⟨1⟩] := by
  decide

/-- C5, counterexample: "api/prod/search" has no entry in either registry, the
connection is opened and the watch registration fails; the call returns the
backend error and the connection stays in `pathServerSet`. -/
theorem C5_counterexample :
    (New sampleHosts).pathServerSet.lookup "api/prod/search" = none ∧
    (New sampleHosts).pathWatcher.lookup "api/prod/search" = none ∧
    (GetServerSetEntity (New sampleHosts) watchFailsBackend 0 "api/prod/search").ret =
      some ⟨none, some (.backend ⟨"zk: could not connect to a server"⟩)⟩ ∧
    (GetServerSetEntity (New sampleHosts) watchFailsBackend 0
      "api/prod/search").cache.pathServerSet.lookup "api/prod/search" =
        some ⟨⟨1⟩, 60 * Minute⟩ := by
  decide

/-- C5, amended: for a valid identifier with no entry in either registry, a call
in which connection construction fails leaves both registries without an
entry for it; a call in which the connection is opened and the watch
registration fails (an error or no watcher) leaves `pathWatcher` without an
entry for it and keeps the new connection in `pathServerSet`, expiring 60
minutes later. -/
theorem C5_failure_state (c : ServiceSetsCache) (hm : c.match_ = servicePattern)
    (B : Backend) (now : Int) (id : String) (hv : IsServicePath id)
    (h1 : c.pathServerSet.lookup id = none) (h2 : c.pathWatcher.lookup id = none)
    (role env service : String) (hs : Split id '/' = [role, env, service]) :
    (B.New role env service c.hosts = none →
      (GetServerSetEntity c B now id).ret =
        some ⟨none, some (.errorsNew "serverSets nil")⟩ ∧
      (GetServerSetEntity c B now id).cache.pathServerSet.lookup id = none ∧
      (GetServerSetEntity c B now id).cache.pathWatcher.lookup id = none) ∧
    (∀ ss, B.New role env service c.hosts = some ss →
      ((B.Watch ss).2 ≠ none ∨ (B.Watch ss).1 = none) →
      (GetServerSetEntity c B now id).ret =
        some ⟨none, (B.Watch ss).2.map GoError.backend⟩ ∧
      (GetServerSetEntity c B now id).cache.pathServerSet.lookup id =
        some ⟨ss, now + 60 * Minute⟩ ∧
      (GetServerSetEntity c B now id).cache.pathWatcher.lookup id = none) := by
  have hG1 : c.pathServerSet.Get now id = none := by simp [Cache.Get, h1]
  have hG2 : c.pathWatcher.Get now id = none := by simp [Cache.Get, h2]
  rw [GetServerSetEntity_of_valid c hm B now id hv]
  constructor
  · intro hN
    simp only [connStage, hG1, hs, hN]
    exact ⟨trivial, h1, h2⟩
  · intro ss hN hW
    have hG3 : ({ c with pathServerSet := c.pathServerSet.Set now id ss (60 * Minute) } :
        ServiceSetsCache).pathWatcher.Get now id = none := hG2
    simp only [connStage, hG1, hs, hN]
    rcases watchStage_spec
        { c with pathServerSet := c.pathServerSet.Set now id ss (60 * Minute) } B now id
        (some ss) [Call.New role env service c.hosts (some ss)] with
      ⟨w, hw, _⟩ | ⟨_, hnone, _⟩ | ⟨_, ss1, hss, ⟨w, hw, _⟩ | ⟨_, h⟩⟩
    · rw [hG3] at hw
      exact Option.noConfusion hw
    · exact Option.noConfusion hnone
    · cases hss
      rw [hw] at hW
      simp at hW
    · cases hss
      rw [h]
      exact ⟨rfl, Cache.lookup_Set_self _ _ _ _, h2⟩

/-- Witness of C5 (amended) on the empty cache with a failing watch registration. -/
theorem C5_failure_state_witness :
    (GetServerSetEntity (New sampleHosts) watchFailsBackend 7 "api/prod/search").ret =
        some ⟨none, (watchFailsBackend.Watch ⟨1⟩).2.map GoError.backend⟩ ∧
      (GetServerSetEntity (New sampleHosts) watchFailsBackend 7
        "api/prod/search").cache.pathServerSet.lookup "api/prod/search" =
          some ⟨⟨1⟩, 7 + 60 * Minute⟩ ∧
      (GetServerSetEntity (New sampleHosts) watchFailsBackend 7
        "api/prod/search").cache.pathWatcher.lookup "api/prod/search" = none :=
  (C5_failure_state (New sampleHosts) rfl watchFailsBackend 7 "api/prod/search"
    ((matchString_servicePattern_iff _).mp (by decide)) (by decide) (by decide)
    "api" "prod" "search" (by decide)).2 ⟨1⟩ (by decide) (by decide)

/-- C7, counterexample: "api/prod/search" is cached at time 0 and looked up again
at minute 30, when both entries are unexpired; after that lookup both entries
still expire at minute 60, not at minute 90, and at minute 61 neither is found
although the last lookup was 31 minutes earlier. -/
theorem C7_counterexample :
    (GetServerSetEntity (New sampleHosts) okBackend 0
      "api/prod/search").cache.pathServerSet.Get (30 * Minute) "api/prod/search" = some ⟨1⟩ ∧
    (GetServerSetEntity (New sampleHosts) okBackend 0
      "api/prod/search").cache.pathWatcher.Get (30 * Minute) "api/prod/search" = some ⟨2⟩ ∧
    (GetServerSetEntity
      (GetServerSetEntity (New sampleHosts) okBackend 0 "api/prod/search").cache
      okBackend (30 * Minute) "api/prod/search").cache.pathServerSet.lookup "api/prod/search" =
        some ⟨⟨1⟩, 60 * Minute⟩ ∧
    (GetServerSetEntity
      (GetServerSetEntity (New sampleHosts) okBackend 0 "api/prod/search").cache
      okBackend (30 * Minute) "api/prod/search").cache.pathWatcher.lookup "api/prod/search" =
        some ⟨⟨2⟩, 60 * Minute⟩ ∧
    (60 * Minute ≠ 30 * Minute + 60 * Minute) ∧
    (GetServerSetEntity
      (GetServerSetEntity (New sampleHosts) okBackend 0 "api/prod/search").cache
      okBackend (30 * Minute) "api/prod/search").cache.pathServerSet.Get (61 * Minute)
        "api/prod/search" = none ∧
    (GetServerSetEntity
      (GetServerSetEntity (New sampleHosts) okBackend 0 "api/prod/search").cache
      okBackend (30 * Minute) "api/prod/search").cache.pathWatcher.Get (61 * Minute)
        "api/prod/search" = none := by
  decide

/-- C7, amended: for a valid identifier whose connection entry (and likewise
watcher entry) is cached and unexpired at time t, a call at time t finds the
cached handle and leaves the entry as it is, with the same handle and the
same expiry (60 minutes after the entry was stored, not after the lookup); so
once that expiry has passed the entry is no longer found, however often it was
looked up before. -/
theorem C7_hit_keeps_expiry (c : ServiceSetsCache) (hm : c.match_ = servicePattern)
    (B : Backend) (t : Int) (id : String) (hv : IsServicePath id) :
    (∀ ss e, c.pathServerSet.lookup id = some ⟨ss, e⟩ →
      Cache.expiredAt t (⟨ss, e⟩ : Item ServerSet) = false →
      c.pathServerSet.Get t id = some ss ∧
      (GetServerSetEntity c B t id).cache.pathServerSet.lookup id = some ⟨ss, e⟩ ∧
      (0 < e → ∀ t2, e < t2 →
        (GetServerSetEntity c B t id).cache.pathServerSet.Get t2 id = none)) ∧
    (∀ w e, c.pathWatcher.lookup id = some ⟨w, e⟩ →
      Cache.expiredAt t (⟨w, e⟩ : Item Watch) = false →
      c.pathWatcher.Get t id = some w ∧
      (GetServerSetEntity c B t id).cache.pathWatcher.lookup id = some ⟨w, e⟩ ∧
      (0 < e → ∀ t2, e < t2 →
        (GetServerSetEntity c B t id).cache.pathWatcher.Get t2 id = none)) := by
  constructor
  · intro ss e hl hx
    have hG : c.pathServerSet.Get t id = some ss :=
      (Cache.Get_eq_some_iff _ _ _ _).mpr ⟨e, hl, hx⟩
    have hcache : (GetServerSetEntity c B t id).cache.pathServerSet = c.pathServerSet := by
      rw [GetServerSetEntity_of_valid c hm B t id hv]
      simp only [connStage, hG]
      exact watchStage_pathServerSet c B t id (some ss) []
    refine ⟨hG, ?_, ?_⟩
    · rw [hcache]; exact hl
    · intro he0 t2 he
      rw [hcache]
      exact Cache.Get_eq_none_of_expired _ _ _ _ _ hl he0 he
  · intro w e hl hx
    have hG : c.pathWatcher.Get t id = some w :=
      (Cache.Get_eq_some_iff _ _ _ _).mpr ⟨e, hl, hx⟩
    have hcache : (GetServerSetEntity c B t id).cache.pathWatcher = c.pathWatcher := by
      rw [GetServerSetEntity_of_valid c hm B t id hv]
      have hk := connStage_keeps c B t id
      cases hc : connStage c B t id with
      | error o => simp only []; rw [hk.1 o hc]
      | ok r =>
        obtain ⟨c1, ss, calls⟩ := r
        have h1 := (hk.2 c1 ss calls hc).1
        simp only []
        rw [watchStage_of_hit c1 B t id ss calls w (by rw [h1]; exact hG)]
        exact h1
    refine ⟨hG, ?_, ?_⟩
    · rw [hcache]; exact hl
    · intro he0 t2 he
      rw [hcache]
      exact Cache.Get_eq_none_of_expired _ _ _ _ _ hl he0 he

/-- Witness of C7 (amended): the connection entry stored at time 0 and looked up at
minute 30 still expires at minute 60. -/
theorem C7_hit_keeps_expiry_witness :
    (GetServerSetEntity (New sampleHosts) okBackend 0
      "api/prod/search").cache.pathServerSet.Get (30 * Minute) "api/prod/search" = some ⟨1⟩ ∧
    (GetServerSetEntity
      (GetServerSetEntity (New sampleHosts) okBackend 0 "api/prod/search").cache
      laterBackend (30 * Minute) "api/prod/search").cache.pathServerSet.lookup "api/prod/search" =
        some ⟨⟨1⟩, 60 * Minute⟩ ∧
    (GetServerSetEntity
      (GetServerSetEntity (New sampleHosts) okBackend 0 "api/prod/search").cache
      laterBackend (30 * Minute) "api/prod/search").cache.pathServerSet.Get (61 * Minute)
        "api/prod/search" = none :=
  have h := (C7_hit_keeps_expiry
    (GetServerSetEntity (New sampleHosts) okBackend 0 "api/prod/search").cache (by decide)
    laterBackend (30 * Minute) "api/prod/search"
    ((matchString_servicePattern_iff _).mp (by decide))).1 ⟨1⟩ (60 * Minute) (by decide)
    (by decide)
  ⟨h.1, h.2.1, h.2.2 (by decide) (61 * Minute) (by decide)⟩

/-- C6, counterexample: in `staggeredCache` the watcher entry of "api/prod/search"
expired at minute 90 while the connection entry lives until minute 121; no
sweep has run. The call at minute 91 registers one watch on the cached
connection and opens no session (and calls no `Close`). -/
theorem C6_counterexample :
    staggeredCache.pathWatcher.lookup "api/prod/search" = some ⟨⟨2⟩, 90 * Minute⟩ ∧
    Cache.expiredAt (91 * Minute) (⟨⟨2⟩, 90 * Minute⟩ : Item Watch) = true ∧
    staggeredCache.pathServerSet.Get (91 * Minute) "api/prod/search" = some ⟨3⟩ ∧
    (GetServerSetEntity staggeredCache laterBackend (91 * Minute) "api/prod/search").calls =
      [Call.Watch ⟨3⟩] ∧
    ((GetServerSetEntity staggeredCache laterBackend (91 * Minute)
      "api/prod/search").calls.filter Call.isNew).length = 0 := by
  decide

/-- C6, amended: for a valid identifier whose cached watcher entry has passed its
expiry, whether the sweep has run since (`c0` is the swept cache) or not
(`c0` is the cache itself), the next call registers exactly one watch as soon
as it holds a connection: on the cached connection, with no session-open,
when the connection entry is still cached and unexpired, and after exactly
one session-open when the connection entry is absent or expired too. A sweep
that runs after the expiry removes the entry and calls `Close` exactly once
on the watcher. -/
theorem C6_expired_watcher (c : ServiceSetsCache) (hm : c.match_ = servicePattern)
    (B : Backend) (now : Int) (id : String) (hv : IsServicePath id)
    (w : Watch) (e : Int) (hw : c.pathWatcher.lookup id = some ⟨w, e⟩)
    (he0 : 0 < e) (he : e < now)
    (hnd : (c.pathWatcher.items.map Prod.fst).Nodup)
    (c0 : ServiceSetsCache)
    (hc0 : c0 = c ∨ ∃ ts, e < ts ∧ c0 = (sweepWatchers c ts).1) :
    (∀ ss, c.pathServerSet.Get now id = some ss →
      (GetServerSetEntity c0 B now id).calls = [Call.Watch ss]) ∧
    (c.pathServerSet.Get now id = none →
      ∀ role env service ss, Split id '/' = [role, env, service] →
        B.New role env service c.hosts = some ss →
        (GetServerSetEntity c0 B now id).calls =
          [Call.New role env service c.hosts (some ss), Call.Watch ss]) ∧
    (∀ ts, e < ts → (∀ q ∈ c.pathWatcher.items, q.2.Object = w → q.1 = id) →
      (sweepWatchers c ts).2.count (Call.Close w) = 1 ∧
      (sweepWatchers c ts).1.pathWatcher.lookup id = none) := by
  have hexp : ∀ ts, e < ts → Cache.expiredAt ts (⟨w, e⟩ : Item Watch) = true := by
    intro ts hts
    simp [Cache.expiredAt, he0, hts]
  have hswept : ∀ ts, e < ts → (sweepWatchers c ts).1.pathWatcher.lookup id = none := by
    intro ts hts
    exact lookup_filter_of_expired c.pathWatcher.items ts id ⟨w, e⟩ hnd hw (hexp ts hts)
  have hmiss : c0.pathWatcher.Get now id = none := by
    rcases hc0 with h | ⟨ts, hts, h⟩
    · rw [h]
      exact Cache.Get_eq_none_of_expired _ _ _ _ _ hw he0 he
    · rw [h]
      simp [Cache.Get, hswept ts hts]
  have hps : c0.pathServerSet = c.pathServerSet := by
    rcases hc0 with h | ⟨ts, _, h⟩ <;> (subst h; rfl)
  have hhosts : c0.hosts = c.hosts := by
    rcases hc0 with h | ⟨ts, _, h⟩ <;> (subst h; rfl)
  have hm0 : c0.match_ = servicePattern := by
    rcases hc0 with h | ⟨ts, _, h⟩ <;> (subst h; exact hm)
  refine ⟨?_, ?_, ?_⟩
  · intro ss hG
    rw [GetServerSetEntity_of_valid c0 hm0 B now id hv]
    simp only [connStage, hps, hG]
    exact watchStage_calls_of_miss c0 B now id ss [] hmiss
  · intro hG role env service ss hs hN
    rw [GetServerSetEntity_of_valid c0 hm0 B now id hv]
    simp only [connStage, hps, hG, hs, hhosts, hN]
    exact watchStage_calls_of_miss _ B now id ss _ hmiss
  · intro ts hts honly
    refine ⟨?_, hswept ts hts⟩
    rw [sweepWatchers_calls]
    exact closeCount_one c.pathWatcher.items ts id w e hnd hw (hexp ts hts) honly

/-- Witness of C6 (amended): both entries stored at time 0, the call at minute 61
comes before any sweep; a sweep at minute 61 calls `Close` once. -/
theorem C6_expired_watcher_witness :
    (GetServerSetEntity
      (GetServerSetEntity (New sampleHosts) okBackend 0 "api/prod/search").cache
      laterBackend (61 * Minute) "api/prod/search").calls =
        [Call.New "api" "prod" "search"
          (GetServerSetEntity (New sampleHosts) okBackend 0 "api/prod/search").cache.hosts
          (some ⟨3⟩), Call.Watch ⟨3⟩] ∧
    (sweepWatchers (GetServerSetEntity (New sampleHosts) okBackend 0 "api/prod/search").cache
      (61 * Minute)).2.count (Call.Close ⟨2⟩) = 1 ∧
    (sweepWatchers (GetServerSetEntity (New sampleHosts) okBackend 0 "api/prod/search").cache
      (61 * Minute)).1.pathWatcher.lookup "api/prod/search" = none :=
  have h := C6_expired_watcher
    (GetServerSetEntity (New sampleHosts) okBackend 0 "api/prod/search").cache (by decide)
    laterBackend (61 * Minute) "api/prod/search"
    ((matchString_servicePattern_iff _).mp (by decide)) ⟨2⟩ (60 * Minute) (by decide)
    (by decide) (by decide) (by decide)
    (GetServerSetEntity (New sampleHosts) okBackend 0 "api/prod/search").cache (Or.inl rfl)
  ⟨h.2.1 (by decide) "api" "prod" "search" ⟨3⟩ (by decide) (by decide),
    h.2.2 (61 * Minute) (by decide) (by decide)⟩

/-- C9: in a cache reached from `New(hosts)` by calls and janitor runs, whenever a
call for a valid identifier invokes `Watch`, the connection it is invoked on
is at that moment (after the connection stage of the call) the unexpired value
stored in `pathServerSet` under that identifier, and it was returned by a
`serversets.New` whose role, environment and service are the three
`/`-separated segments of the identifier. -/
theorem C9_watch_on_cached_connection (hosts : List String) (c : ServiceSetsCache)
    (h : List Call) (hr : Reachable hosts c h) (B : Backend) (now : Int) (id : String)
    (hv : IsServicePath id) (ss : ServerSet)
    (hw : Call.Watch ss ∈ (GetServerSetEntity c B now id).calls) :
    ∃ c1 calls1, connStage c B now id = .ok (c1, some ss, calls1) ∧
      c1.pathServerSet.Get now id = some ss ∧
      ∃ role env service, Split id '/' = [role, env, service] ∧
        Call.New role env service hosts (some ss) ∈ h ++ calls1 := by
  obtain ⟨ih1, ih2, ih3⟩ := reachable_inv hosts c h hr
  obtain ⟨r, e, sv, hs3, _⟩ := split_of_isServicePath id hv
  rw [GetServerSetEntity_of_valid c ih2 B now id hv] at hw
  rcases connStage_spec c B now id with
    ⟨ss0, hG, hc⟩ | ⟨_, p0, p1, p2, rest, hs, ⟨_, hc⟩ | ⟨ss0, hN, hc⟩⟩ | ⟨_, _, hc⟩
  · rw [hc] at hw
    simp only [] at hw
    have hss : ss = ss0 := by
      rcases watchStage_calls_extends c B now id (some ss0) [] with hx | ⟨ss1, h1, hx⟩
      · rw [hx] at hw
        simp at hw
      · rw [hx] at hw
        simp only [Option.some.injEq] at h1
        simpa [h1] using hw
    subst hss
    refine ⟨c, [], hc, hG, ?_⟩
    obtain ⟨e1, hmem⟩ := mem_items_of_Get _ _ _ _ hG
    obtain ⟨r1, e2, sv1, hsp, hnew⟩ := ih3 _ hmem
    exact ⟨r1, e2, sv1, hsp, List.mem_append_left _ hnew⟩
  · rw [hc] at hw
    simp at hw
  · rw [hc] at hw
    simp only [] at hw
    rw [hs3] at hs
    simp only [List.cons.injEq] at hs
    obtain ⟨hr0, he0, hsv0, _⟩ := hs
    subst hr0; subst he0; subst hsv0
    have hss : ss = ss0 := by
      rcases watchStage_calls_extends
          { c with pathServerSet := c.pathServerSet.Set now id ss0 (60 * Minute) } B now id
          (some ss0) [Call.New r e sv c.hosts (some ss0)] with hx | ⟨ss1, h1, hx⟩
      · rw [hx] at hw
        simp at hw
      · rw [hx] at hw
        simp only [Option.some.injEq] at h1
        simpa [h1] using hw
    subst hss
    refine ⟨_, _, hc, Cache.Get_Set_self _ _ _ _, r, e, sv, hs3, ?_⟩
    apply List.mem_append_right
    rw [ih1]
    simp
  · rw [hc] at hw
    simp at hw

/-- Witness of C9: a first call opened connection 1 and failed to register the
watch; the next call registers the watch on the cached connection 1. -/
theorem C9_watch_on_cached_connection_witness :
    ∃ c1 calls1,
      connStage (GetServerSetEntity (New sampleHosts) watchFailsBackend 0 "api/prod/search").cache
        laterBackend 5 "api/prod/search" = .ok (c1, some ⟨1⟩, calls1) ∧
      c1.pathServerSet.Get 5 "api/prod/search" = some ⟨1⟩ ∧
      ∃ role env service, Split "api/prod/search" '/' = [role, env, service] ∧
        Call.New role env service sampleHosts (some ⟨1⟩) ∈
          ([] ++ (GetServerSetEntity (New sampleHosts) watchFailsBackend 0
            "api/prod/search").calls) ++ calls1 :=
  C9_watch_on_cached_connection sampleHosts _ _
    (Reachable.call (New sampleHosts) [] watchFailsBackend 0 "api/prod/search" Reachable.init)
    laterBackend 5 "api/prod/search" ((matchString_servicePattern_iff _).mp (by decide)) ⟨1⟩
    (by decide)

/-- C8, counterexample: two calls for "api/prod/search" start on the empty cache
and take their steps in turn. Both miss the connection lookup before either
has stored a connection, so the run makes two session-opens and two watch
registrations, and both calls end successfully. -/
theorem C8_counterexample :
    (Machine.run 0 "api/prod/search"
      ⟨New sampleHosts, [], [(okBackend, .validate), (laterBackend, .validate)]⟩
      [0, 1, 0, 1, 0, 1, 0, 1, 0, 1, 0, 1, 0, 1, 0, 1]).calls =
        [Call.New "api" "prod" "search" sampleHosts (some ⟨1⟩),
         Call.New "api" "prod" "search" sampleHosts (some ⟨3⟩),
         Call.Watch ⟨1⟩, Call.Watch ⟨3⟩] ∧
    (Machine.run 0 "api/prod/search"
      ⟨New sampleHosts, [], [(okBackend, .validate), (laterBackend, .validate)]⟩
      [0, 1, 0, 1, 0, 1, 0, 1, 0, 1, 0, 1, 0, 1, 0, 1]).positions =
        [.done (some ⟨some [], none⟩), .done (some ⟨some [], none⟩)] ∧
    ((Machine.run 0 "api/prod/search"
      ⟨New sampleHosts, [], [(okBackend, .validate), (laterBackend, .validate)]⟩
      [0, 1, 0, 1, 0, 1, 0, 1, 0, 1, 0, 1, 0, 1, 0, 1]).calls.filter Call.isNew).length = 2 ∧
    ((Machine.run 0 "api/prod/search"
      ⟨New sampleHosts, [], [(okBackend, .validate), (laterBackend, .validate)]⟩
      [0, 1, 0, 1, 0, 1, 0, 1, 0, 1, 0, 1, 0, 1, 0, 1]).calls.filter Call.isWatch).length = 2 := by
  decide

/-- C8, amended: for a valid identifier with no entry in either registry, calls
made one after the other (each finished before the next starts), the first
succeeding at time `t0` and the others no later than 60 minutes after it,
make exactly one session-open and exactly one watch registration in all, and
every call returns the endpoint entities of the same watcher. -/
theorem C8_sequential_single_construction (c : ServiceSetsCache)
    (hm : c.match_ = servicePattern) (id : String) (hv : IsServicePath id)
    (h1 : c.pathServerSet.lookup id = none) (h2 : c.pathWatcher.lookup id = none)
    (B : Backend) (t0 : Int) (role env service : String)
    (hs : Split id '/' = [role, env, service])
    (ss : ServerSet) (hN : B.New role env service c.hosts = some ss)
    (w : Watch) (hW : B.Watch ss = (some w, none))
    (rest : List (Backend × Int)) (hrest : ∀ q ∈ rest, q.2 ≤ t0 + 60 * Minute) :
    (runSequential id c ((B, t0) :: rest)).2.2 =
      [Call.New role env service c.hosts (some ss), Call.Watch ss] ∧
    (runSequential id c ((B, t0) :: rest)).1 =
      some ⟨B.EndpointEntities w, none⟩ ::
        rest.map (fun q => some ⟨q.1.EndpointEntities w, none⟩) := by
  have hG1 : c.pathServerSet.Get t0 id = none := by simp [Cache.Get, h1]
  have hG2 : c.pathWatcher.Get t0 id = none := by simp [Cache.Get, h2]
  have hfirst : GetServerSetEntity c B t0 id =
      ⟨some ⟨B.EndpointEntities w, none⟩,
        { c with
          pathServerSet := c.pathServerSet.Set t0 id ss (60 * Minute)
          pathWatcher := c.pathWatcher.Set t0 id w (60 * Minute) },
        [Call.New role env service c.hosts (some ss), Call.Watch ss]⟩ := by
    rw [GetServerSetEntity_of_valid c hm B t0 id hv]
    simp only [connStage, hG1, hs, hN, watchStage, hG2, hW, readEndpoints, List.singleton_append]
  have hlater : ∀ (l : List (Backend × Int)), (∀ q ∈ l, q.2 ≤ t0 + 60 * Minute) →
      runSequential id
        { c with
          pathServerSet := c.pathServerSet.Set t0 id ss (60 * Minute)
          pathWatcher := c.pathWatcher.Set t0 id w (60 * Minute) } l =
      (l.map (fun q => some ⟨q.1.EndpointEntities w, none⟩),
        { c with
          pathServerSet := c.pathServerSet.Set t0 id ss (60 * Minute)
          pathWatcher := c.pathWatcher.Set t0 id w (60 * Minute) }, []) := by
    intro l
    induction l with
    | nil => intro _; rfl
    | cons a l ih =>
      intro hl
      obtain ⟨Ba, ta⟩ := a
      have hta : ta ≤ t0 + 60 * Minute := hl (Ba, ta) (List.mem_cons_self _ _)
      have hit := GetServerSetEntity_of_hits
        { c with
          pathServerSet := c.pathServerSet.Set t0 id ss (60 * Minute)
          pathWatcher := c.pathWatcher.Set t0 id w (60 * Minute) } hm Ba ta id hv ss w
        (Cache.Get_of_not_after _ ta id ss _ (Cache.lookup_Set_self _ _ _ _) hta)
        (Cache.Get_of_not_after _ ta id w _ (Cache.lookup_Set_self _ _ _ _) hta)
      simp only [runSequential, hit, ih (fun q hq => hl q (List.mem_cons_of_mem _ hq)),
        List.map_cons, List.append_nil]
  simp only [runSequential, hfirst, hlater rest hrest, List.append_nil, and_self]

/-- Witness of C8 (amended): three calls in a row, at time 0, at minute 10 and at
minute 60. -/
theorem C8_sequential_single_construction_witness :
    (runSequential "api/prod/search" (New sampleHosts)
      ((okBackend, 0) :: [(laterBackend, 10 * Minute), (nilNilBackend, 60 * Minute)])).2.2 =
      [Call.New "api" "prod" "search" (New sampleHosts).hosts (some ⟨1⟩), Call.Watch ⟨1⟩] ∧
    (runSequential "api/prod/search" (New sampleHosts)
      ((okBackend, 0) :: [(laterBackend, 10 * Minute), (nilNilBackend, 60 * Minute)])).1 =
      some ⟨okBackend.EndpointEntities ⟨2⟩, none⟩ ::
        [(laterBackend, 10 * Minute), (nilNilBackend, 60 * Minute)].map
          (fun q => some ⟨q.1.EndpointEntities ⟨2⟩, none⟩) :=
  C8_sequential_single_construction (New sampleHosts) rfl "api/prod/search"
    ((matchString_servicePattern_iff _).mp (by decide)) (by decide) (by decide)
    okBackend 0 "api" "prod" "search" (by decide) ⟨1⟩ (by decide) ⟨2⟩ (by decide)
    [(laterBackend, 10 * Minute), (nilNilBackend, 60 * Minute)] (by decide)

/-- C10 at the failing inputs: for a request whose lookup fails, be it on an
identifier that does not validate ("api/qa/search") or on a backend failure,
the handler returns without touching the response writer, so no status of the
4xx/5xx range is written and the client is served status 200. -/
theorem C10_failed_lookup_writes_nothing :
    (GetServerSetEntity (New sampleHosts) okBackend 0 "api/qa/search").ret =
      some ⟨none, some (.errorsNew "Service 'api/qa/search', Not Match ")⟩ ∧
    (handleEvent (New sampleHosts) okBackend 0 (fun _ => "[]") ResponseWriter.fresh
      ⟨"GET", [("role", "api"), ("env", "qa"), ("service", "search")]⟩).w =
        ResponseWriter.fresh ∧
    (handleEvent (New sampleHosts) okBackend 0 (fun _ => "[]") ResponseWriter.fresh
      ⟨"GET", [("role", "api"), ("env", "qa"), ("service", "search")]⟩).w.status = none ∧
    (handleEvent (New sampleHosts) okBackend 0 (fun _ => "[]") ResponseWriter.fresh
      ⟨"GET", [("role", "api"), ("env", "qa"), ("service", "search")]⟩).w.servedStatus = 200 ∧
    (GetServerSetEntity (New sampleHosts) watchFailsBackend 0 "api/prod/search").ret =
      some ⟨none, some (.backend ⟨"zk: could not connect to a server"⟩)⟩ ∧
    (handleEvent (New sampleHosts) watchFailsBackend 0 (fun _ => "[]") ResponseWriter.fresh
      ⟨"GET", [("role", "api"), ("env", "prod"), ("service", "search")]⟩).w.servedStatus = 200 := by
  decide

end Discovery
